import Mathlib

/-!
# Verification of the Spotify EDA cleaning/analysis core

A shallow embedding of `src/cleaner.py` and `src/analyzer.py` from the
Spotify EDA repository.  Tables are modelled column-major, the way pandas
stores a `DataFrame`: a list of columns, each carrying a label, a dtype and
a list of cells.  Cells are a sum type of the pandas scalar kinds the
pipeline manipulates (missing value, integer, float — modelled as `Rat` —
string, list of strings, datetime).  Fallible pandas operations
(`astype(int)` on a non-numeric object column, `df[col]` on a missing
label, `resample` on an unknown frequency code) are modelled with
`Except`.  String routines (`str.lower`, `str.strip`, `str.replace`,
`split(",")`, `ast.literal_eval` on list literals) are implemented over
`List Char`, restricted to ASCII case mapping as the data is ASCII.
-/

/-- Pandas column dtypes relevant to this pipeline.  `select_dtypes` and
the fill policies dispatch on the dtype, not on the cell values, so the
dtype is carried explicitly on each column. -/
inductive Dtype where
  | number
  | object
  | datetime
deriving Repr, DecidableEq

/-- A calendar date, as produced by `pd.to_datetime`. -/
structure Date where
  year : Int
  month : Nat
  day : Nat
deriving Repr, DecidableEq

/-- A cell of a pandas column: missing (`NaN`/`NaT`), integer, float
(modelled exactly as `Rat`), string, Python list of strings, or datetime. -/
inductive Value where
  | null
  | int (n : Int)
  | float (q : Rat)
  | str (s : String)
  | vlist (l : List String)
  | date (d : Date)
deriving Repr, DecidableEq

/-- A named, typed column of a DataFrame. -/
structure Col where
  name : String
  dtype : Dtype
  vals : List Value
deriving Repr, DecidableEq

/-- A DataFrame: an ordered list of columns. -/
structure DF where
  cols : List Col
deriving Repr, DecidableEq

/-! ## ASCII character and string helpers

`pandas.Series.str.lower`, `.str.strip`, `.str.replace` and Python's
`str.strip`/`str.split` are modelled over `List Char` (ASCII case rules,
which covers the catalog data). -/

/-- Whitespace as recognised by Python's `str.strip` (ASCII subset). -/
def isWsChar (c : Char) : Bool :=
  c.toNat = 32 || c.toNat = 9 || c.toNat = 10 || c.toNat = 13

/-- ASCII lower-casing of one character (model of `str.lower`). -/
def lowerChar (c : Char) : Char :=
  if 65 ≤ c.toNat ∧ c.toNat ≤ 90 then Char.ofNat (c.toNat + 32) else c

/-- ASCII upper-casing of one character (model of `str.upper`). -/
def upperChar (c : Char) : Char :=
  if 97 ≤ c.toNat ∧ c.toNat ≤ 122 then Char.ofNat (c.toNat - 32) else c

/-- Strip leading and trailing whitespace from a character list
(model of `str.strip`). -/
def trimChars (l : List Char) : List Char :=
  ((l.dropWhile isWsChar).reverse.dropWhile isWsChar).reverse

def strLower (s : String) : String := String.mk (s.data.map lowerChar)

def strUpper (s : String) : String := String.mk (s.data.map upperChar)

def strTrim (s : String) : String := String.mk (trimChars s.data)

/-- The character substitution of `.str.replace(" ", "_")`. -/
def underscoreSpace (c : Char) : Char :=
  if c = ' ' then '_' else c

/-- `df.columns.str.lower().str.replace(" ", "_")`: lower-case the label and
replace each space with an underscore. -/
def normName (s : String) : String :=
  String.mk ((s.data.map lowerChar).map underscoreSpace)

/-- Characters removed from `genres` by
`.str.replace(r"[\[\]']", "", regex=True)`: `[` (code 91), `]` (code 93)
and `'` (code 39). -/
def isBrkChar (c : Char) : Bool :=
  c.toNat = 91 || c.toNat = 93 || c.toNat = 39

def removeBrk (s : String) : String :=
  String.mk (s.data.filter (fun c => !isBrkChar c))

/-- Split a character list on `,` (model of `str.split(",")`). -/
def splitCommaChars : List Char → List (List Char)
  | [] => [[]]
  | c :: cs =>
    let rest := splitCommaChars cs
    if c = ',' then [] :: rest
    else
      match rest with
      | [] => [[c]]
      | r :: rs => (c :: r) :: rs

/-- `[g.strip() for g in val.split(",")]`. -/
def splitCommaTrim (s : String) : List String :=
  (splitCommaChars s.data).map (fun l => String.mk (trimChars l))

/-- Parse an optional sign followed by one or more digits
(the integer grammar accepted by Python's `int(str)` after stripping). -/
def parseIntChars (l : List Char) : Option Int :=
  let core : List Char → Option Int := fun ds =>
    if ds.isEmpty then none
    else if ds.all (·.isDigit) then
      some (Int.ofNat (ds.foldl (fun a c => a * 10 + (c.toNat - 48)) 0))
    else none
  match l with
  | '-' :: ds => (core ds).map (fun n => -n)
  | '+' :: ds => core ds
  | ds => core ds

/-- Parse a decimal literal `[sign] digits [. digits]` as an exact rational
(the numeric grammar `pd.to_numeric` accepts for the catalog data). -/
def parseRatChars (l : List Char) : Option Rat :=
  let digitsVal : List Char → Nat := fun ds =>
    ds.foldl (fun a c => a * 10 + (c.toNat - 48)) 0
  let core : List Char → Option Rat := fun ds =>
    match ds.splitOn '.' with
    | [ip] =>
      if !ip.isEmpty && ip.all (·.isDigit) then some ((digitsVal ip : Int) : Rat)
      else none
    | [ip, fp] =>
      if (!ip.isEmpty || !fp.isEmpty) && ip.all (·.isDigit) && fp.all (·.isDigit) then
        some (((digitsVal ip : Int) : Rat) + (digitsVal fp : Rat) / ((10 : Rat) ^ fp.length))
      else none
    | _ => none
  match l with
  | '-' :: ds => (core ds).map (fun q => -q)
  | '+' :: ds => core ds
  | ds => core ds

/-! ## Scalar-level pandas operations -/

/-- `fillna(w)` on one cell. -/
def fillnaV (w : Value) (v : Value) : Value :=
  if v = Value.null then w else v

/-- Truncation toward zero, as Python's `int(float)`. -/
def ratTrunc (q : Rat) : Int :=
  if q < 0 then -((-q).floor) else q.floor

/-- `astype(int)` on one cell of an object/number column.  Mirrors pandas:
integers pass through, floats truncate toward zero, numeric strings parse
via Python `int(...)`, anything else raises `ValueError`. -/
def astypeIntV (v : Value) : Except String Int :=
  match v with
  | Value.int n => Except.ok n
  | Value.float q => Except.ok (ratTrunc q)
  | Value.str s =>
    match parseIntChars (trimChars s.data) with
    | some n => Except.ok n
    | none => Except.error ("ValueError: invalid literal for int: " ++ s)
  | Value.null => Except.error "ValueError: cannot convert NA to integer"
  | _ => Except.error "ValueError: astype int"

/-- `pd.to_numeric(-, errors="coerce")` on one cell: numbers pass through,
numeric strings parse, everything else coerces to `NaN`. -/
def toNumericV (v : Value) : Value :=
  match v with
  | Value.int n => Value.int n
  | Value.float q => Value.float q
  | Value.str s =>
    match parseIntChars (trimChars s.data) with
    | some n => Value.int n
    | none =>
      match parseRatChars (trimChars s.data) with
      | some q => Value.float q
      | none => Value.null
  | _ => Value.null

/-- The rational reading of a numeric cell, `none` for anything else. -/
def ratOfV (v : Value) : Option Rat :=
  match v with
  | Value.int n => some (n : Rat)
  | Value.float q => some q
  | _ => none

/-- Parse dates of the shapes accepted for this catalog:
`YYYY`, `YYYY-MM`, `YYYY-MM-DD` (model of `pd.to_datetime` on the data's
string formats). -/
def parseDate (s : String) : Option Date :=
  let toN : List Char → Option Nat := fun l =>
    if !l.isEmpty && l.all (·.isDigit) then
      some (l.foldl (fun a c => a * 10 + (c.toNat - 48)) 0)
    else none
  match (trimChars s.data).splitOn '-' with
  | [y] => (toN y).map (fun yn => { year := yn, month := 1, day := 1 })
  | [y, m] =>
    match toN y, toN m with
    | some yn, some mn =>
      if 1 ≤ mn ∧ mn ≤ 12 then some { year := yn, month := mn, day := 1 } else none
    | _, _ => none
  | [y, m, d] =>
    match toN y, toN m, toN d with
    | some yn, some mn, some dn =>
      if 1 ≤ mn ∧ mn ≤ 12 ∧ 1 ≤ dn ∧ dn ≤ 31 then
        some { year := yn, month := mn, day := dn }
      else none
    | _, _, _ => none
  | _ => none

/-- `pd.to_datetime(-, errors="coerce")` on one cell.  Datetimes pass
through, strings parse or coerce to `NaT`, missing stays missing; numeric
epoch inputs are outside the catalog's formats and coerce to `NaT` here. -/
def toDatetimeV (v : Value) : Value :=
  match v with
  | Value.date d => Value.date d
  | Value.str s =>
    match parseDate s with
    | some d => Value.date d
    | none => Value.null
  | Value.null => Value.null
  | _ => Value.null

/-- Python `str(...)` of a cell, as applied by `.astype(str)`. -/
def valToStr (v : Value) : String :=
  match v with
  | Value.str s => s
  | Value.int n => toString n
  | Value.float q => toString q
  | Value.null => "nan"
  | Value.vlist l =>
    "[" ++ String.intercalate ", " (l.map (fun s => "'" ++ s ++ "'")) ++ "]"
  | Value.date d =>
    toString d.year ++ "-" ++ toString d.month ++ "-" ++ toString d.day

/-- The `genres` formatting chain of `clean_artists`:
`.astype(str)` then `.str.replace(r"[\[\]']", "")` then `.str.strip()`
then `.str.lower()`. -/
def cleanGenresV (v : Value) : Value :=
  Value.str (strLower (strTrim (removeBrk (valToStr v))))

/-- Insertion of a rational into an ascending-sorted list. -/
def insertRat (q : Rat) : List Rat → List Rat
  | [] => [q]
  | r :: l => if q ≤ r then q :: r :: l else r :: insertRat q l

/-- Ascending insertion sort of rationals (used for the median). -/
def sortRats : List Rat → List Rat
  | [] => []
  | q :: l => insertRat q (sortRats l)

/-- The median of the numeric cells of a column, pandas `Series.median`:
missing and non-numeric cells are skipped; the empty median is `NaN`. -/
def medianV (vals : List Value) : Value :=
  let qs := sortRats (vals.filterMap ratOfV)
  let n := qs.length
  if n = 0 then Value.null
  else if n % 2 = 1 then
    Value.float (qs.getD (n / 2) 0)
  else
    Value.float ((qs.getD (n / 2 - 1) 0 + qs.getD (n / 2) 0) / 2)

/-! ## Row-mask and sorting machinery

pandas row selection (`df[mask]`, `drop_duplicates`) is a boolean mask
applied to every column; `sort_values` is `nargsort`: a stable ascending
argsort of the key column, reversed when `ascending=False`.  (numpy's
default introsort runs plain insertion sort — which is stable — on arrays
below its 16-element cutoff, the regime of every concrete table here.) -/

/-- Apply a boolean keep-mask positionally to a list. -/
def applyMask {α : Type} : List Bool → List α → List α
  | true :: ms, v :: vs => v :: applyMask ms vs
  | false :: ms, _ :: vs => applyMask ms vs
  | _, [] => []
  | [], vs => vs

/-- The keep-mask of `drop_duplicates(keep="first")` over a key column:
a position is kept when its key has not been seen before. -/
def keepMask (seen : List Value) : List Value → List Bool
  | [] => []
  | v :: vs =>
    if v ∈ seen then false :: keepMask seen vs
    else true :: keepMask (v :: seen) vs

/-- Stable insertion into a list ascending on `key`: an element goes in
front of the first element of greater-or-equal key. -/
def insertLE {α : Type} (key : α → Int) (a : α) : List α → List α
  | [] => [a]
  | b :: l => if key a ≤ key b then a :: b :: l else b :: insertLE key a l

/-- Stable insertion sort, ascending on `key`. -/
def sortLE {α : Type} (key : α → Int) : List α → List α
  | [] => []
  | a :: l => insertLE key a (sortLE key l)

/-- Stable ascending argsort of an integer key column. -/
def argsortAsc (keys : List Int) : List Nat :=
  sortLE (fun i => keys.getD i 0) (List.range keys.length)

/-- `pandas.core.sorting.nargsort` with `ascending=False`: the values and
the index array `arange(n)` are reversed *before* the stable ascending
argsort, and the resulting indexer is reversed *after*, so tied keys come
back in their original relative order (pandas GH #6399).  Position `i` of
the reversed `arange(n)` holds `n - 1 - i`. -/
def argsortDesc (keys : List Int) : List Nat :=
  ((argsortAsc keys.reverse).map (fun i => keys.length - 1 - i)).reverse

/-- The order a stable ascending sort realizes on positions: a strictly
smaller key, or an equal key and a smaller (earlier) original position. -/
def ascStable (keys : List Int) (i j : Nat) : Prop :=
  keys.getD i 0 < keys.getD j 0 ∨ (keys.getD i 0 = keys.getD j 0 ∧ i < j)

/-- The order a stable descending sort realizes on positions: a strictly
greater key, or an equal key and a smaller (earlier) original position. -/
def descStable (keys : List Int) (i j : Nat) : Prop :=
  keys.getD j 0 < keys.getD i 0 ∨ (keys.getD i 0 = keys.getD j 0 ∧ i < j)

/-- Distinct elements of a list in first-seen order. -/
def firstSeen (seen : List String) : List String → List String
  | [] => []
  | s :: l => if s ∈ seen then firstSeen seen l else s :: firstSeen (s :: seen) l

/-- `Series.value_counts()`: tally each distinct element (the counting
hash table's key iteration order, determinized here as first-seen order),
then `sort_values(ascending=False)` on the counts — `nargsort`: reverse,
stable ascending sort, reverse — which keeps tied counts in tally order. -/
def valueCounts (xs : List String) : List (String × Nat) :=
  let tally := (firstSeen [] xs).map (fun k => (k, xs.count k))
  (sortLE (fun p => (p.2 : Int)) tally.reverse).reverse

/-- `ast.literal_eval` restricted to list-of-string-literal sources, the
shape `genre_distribution` consumes: `"['pop','rock']"`.  Returns `none`
both when parsing raises and when the parsed value is not a list, the two
cases the source collapses into the comma-split fallback. -/
def parseListLitAux : Nat → List Char → Option (List String)
  | 0, _ => none
  | _ + 1, [] => none
  | fuel + 1, c :: cs =>
    if isWsChar c then parseListLitAux fuel cs
    else if c = '\'' ∨ c = '"' then
      let body := cs.takeWhile (· != c)
      let rest := (cs.dropWhile (· != c)).drop 1
      let rest := rest.dropWhile isWsChar
      match rest with
      | ']' :: tail => if tail.all isWsChar then some [String.mk body] else none
      | ',' :: tail => (parseListLitAux fuel tail).map (String.mk body :: ·)
      | _ => none
    else none

def parseListLit (s : String) : Option (List String) :=
  match trimChars s.data with
  | '[' :: rest =>
    let inner := rest.dropWhile isWsChar
    match inner with
    | [']'] => some []
    | _ => parseListLitAux (inner.length + 1) inner
  | _ => none

/-! ## DataFrame operations -/

/-- `df[k]`: the first column labelled `k`, or a `KeyError`. -/
def getColE (df : DF) (k : String) : Except String Col :=
  match df.cols.find? (fun c => c.name == k) with
  | some c => Except.ok c
  | none => Except.error ("KeyError: " ++ k)

/-- `k in df.columns`. -/
def hasCol (df : DF) (k : String) : Bool :=
  df.cols.any (fun c => c.name == k)

/-- Column assignment `df[k] = vals`: replace the first column labelled
`k`, or append a new one. -/
def setColAux (k : String) (dt : Dtype) (vs : List Value) : List Col → List Col
  | [] => [⟨k, dt, vs⟩]
  | c :: cs => if c.name == k then ⟨k, dt, vs⟩ :: cs else c :: setColAux k dt vs cs

def setCol (df : DF) (k : String) (dt : Dtype) (vs : List Value) : DF :=
  ⟨setColAux k dt vs df.cols⟩

/-- Row selection by a boolean mask, applied to every column. -/
def maskRows (df : DF) (m : List Bool) : DF :=
  ⟨df.cols.map (fun c => { c with vals := applyMask m c.vals })⟩

/-- Row selection by an index list (`take` of an argsort), applied to
every column. -/
def selectIdxs (df : DF) (idxs : List Nat) : DF :=
  ⟨df.cols.map (fun c => { c with vals := idxs.map (fun i => c.vals.getD i Value.null) })⟩

/-- `df.head(n)`. -/
def headDF (df : DF) (n : Nat) : DF :=
  ⟨df.cols.map (fun c => { c with vals := c.vals.take n })⟩

/-- `df.columns = df.columns.str.lower().str.replace(" ", "_")`. -/
def renameCols (df : DF) : DF :=
  ⟨df.cols.map (fun c => { c with name := normName c.name })⟩

/-- `df[numeric_cols] = df[numeric_cols].fillna(df[numeric_cols].median())`
where `numeric_cols = df.select_dtypes(include=["number"]).columns`:
each number-dtype column has its missing cells replaced by that column's
median (a column whose median is `NaN` is left as is). -/
def fillColMedian (c : Col) : Col :=
  if c.dtype = Dtype.number then { c with vals := c.vals.map (fillnaV (medianV c.vals)) }
  else c

def fillNumericMedians (df : DF) : DF :=
  ⟨df.cols.map fillColMedian⟩

/-- `df.fillna` on a single column, keeping its dtype. -/
def fillnaCol (df : DF) (k : String) (w : Value) : Except String DF := do
  let c ← getColE df k
  pure (setCol df k c.dtype (c.vals.map (fillnaV w)))

/-- `df[k] = df[k].fillna(0).astype(int)`. -/
def intCoerceCol (df : DF) (k : String) : Except String DF := do
  let c ← getColE df k
  let ints ← (c.vals.map (fillnaV (Value.int 0))).mapM astypeIntV
  pure (setCol df k Dtype.number (ints.map Value.int))

/-- Map a cell transform over one column, assigning the given dtype. -/
def mapColE (df : DF) (k : String) (dt : Dtype) (f : Value → Value) :
    Except String DF := do
  let c ← getColE df k
  pure (setCol df k dt (c.vals.map f))

/-- `df.drop_duplicates(subset=[k], keep="first")`. -/
def dropDup (df : DF) (k : String) : Except String DF := do
  let c ← getColE df k
  pure (maskRows df (keepMask [] c.vals))

/-! ## The cleaner (`src/cleaner.py`) -/

/-- `clean_artists`: normalise column labels; `genres.fillna("Unknown")`;
`followers`/`popularity` `fillna(0).astype(int)`; strip list brackets and
quotes from `genres`, trim and lower-case it; drop duplicate `id` rows
keeping the first. -/
def clean_artists (artists : DF) : Except String DF :=
  (fillnaCol (renameCols artists) "genres" (Value.str "Unknown")).bind (fun df =>
  (intCoerceCol df "followers").bind (fun df =>
  (intCoerceCol df "popularity").bind (fun df =>
  (mapColE df "genres" Dtype.object cleanGenresV).bind (fun df =>
  dropDup df "id"))))

/-- `clean_tracks`: normalise column labels; `release_date` to datetime
with coercion; median-fill every number-dtype column; drop duplicate `id`
rows keeping the first. -/
def clean_tracks (tracks : DF) : Except String DF :=
  (mapColE (renameCols tracks) "release_date" Dtype.datetime toDatetimeV).bind
    (fun df => dropDup (fillNumericMedians df) "id")

/-- `clean_features`: normalise column labels; median-fill every
number-dtype column; drop duplicate `track_id` rows keeping the first. -/
def clean_features (features : DF) : Except String DF :=
  dropDup (fillNumericMedians (renameCols features)) "track_id"

/-! ## The analyzer (`src/analyzer.py`) -/

/-- The integer key of a coerced popularity/followers cell. -/
def intKeyV (v : Value) : Int :=
  match v with
  | Value.int n => n
  | _ => 0

/-- `to_numeric(-, errors="coerce").fillna(0).astype(int)` on one cell. -/
def numFill0 (v : Value) : Value :=
  match toNumericV v with
  | Value.null => Value.int 0
  | Value.int n => Value.int n
  | Value.float q => Value.int (ratTrunc q)
  | w => w

/-- `df.sort_values(k, ascending=False)` restricted to an integer-valued
column: select the rows at the indexer produced by pandas `nargsort` with
`ascending=False`. -/
def sortValsDesc (df : DF) (keys : List Int) : DF :=
  selectIdxs df (argsortDesc keys)

/-- `get_top_popular_tracks(tracks, threshold, top_n)` from
`src/analyzer.py`. -/
def get_top_popular_tracks (tracks : DF) (threshold : Option Int) (top_n : Nat) : DF :=
  if hasCol tracks "popularity" = false then headDF tracks 0
  else
    match getColE tracks "popularity" with
    | Except.error _ => headDF tracks 0
    | Except.ok c =>
      let coerced := c.vals.map numFill0
      let df := setCol tracks "popularity" Dtype.number coerced
      let filtered :=
        match threshold with
        | some th => maskRows df (coerced.map (fun v => decide (intKeyV v > th)))
        | none => df
      let keys :=
        match getColE filtered "popularity" with
        | Except.ok c2 => c2.vals.map intKeyV
        | Except.error _ => []
      headDF (sortValsDesc filtered keys) top_n

/-- `top_artists_by_followers(artists, top_n)` from `src/analyzer.py`. -/
def top_artists_by_followers (artists : DF) (top_n : Nat) : DF :=
  if hasCol artists "followers" = false then headDF artists 0
  else
    match getColE artists "followers" with
    | Except.error _ => headDF artists 0
    | Except.ok c =>
      let coerced := c.vals.map numFill0
      let df := setCol artists "followers" Dtype.number coerced
      headDF (sortValsDesc df (coerced.map intKeyV)) top_n

/-- The per-cell genre tokenizer of `genre_distribution`: a list is used
as is; a string is parsed as a list literal, falling back to a comma split
with trimmed tokens; other scalars contribute nothing. -/
def tokensOf (v : Value) : List String :=
  match v with
  | Value.vlist l => l
  | Value.str s =>
    match parseListLit s with
    | some l => l
    | none => splitCommaTrim s
  | _ => []

/-- `genre_distribution(artists)` from `src/analyzer.py`: tokenize every
non-missing `genres` cell, tally with `value_counts`. -/
def genre_distribution (artists : DF) : List (String × Nat) :=
  if hasCol artists "genres" = false then []
  else
    match getColE artists "genres" with
    | Except.error _ => []
    | Except.ok c =>
      valueCounts (((c.vals.filter (· ≠ Value.null)).map tokensOf).flatten)

/-- Mean of the numeric cells of a bucket; `NaN` (here `none`) when the
bucket has no numeric cell — also when the bucket is empty. -/
def meanOfBucket (vals : List Value) : Option Rat :=
  let qs := vals.filterMap ratOfV
  if qs.isEmpty then none else some (qs.sum / (qs.length : Rat))

/-- `resample("YE").mean()`: year-end buckets from the minimum to the
maximum year, labelled December 31, each the skip-missing mean of the
bucket's popularity cells; gap years are present with mean `NaN`. -/
def resampleYearMean (pairs : List (Date × Value)) : List (Date × Option Rat) :=
  match pairs.map (fun p => p.1.year) with
  | [] => []
  | y :: ys =>
    let lo := ys.foldl min y
    let hi := ys.foldl max y
    (List.range (hi - lo + 1).toNat).map (fun (i : Nat) =>
      let yr := lo + (i : Int)
      (⟨yr, 12, 31⟩, meanOfBucket ((pairs.filter (fun p => p.1.year = yr)).map (·.2))))

/-- Days in a month (Gregorian). -/
def lastDay (y : Int) (m : Nat) : Nat :=
  if m = 2 then (if y % 4 = 0 ∧ (y % 100 ≠ 0 ∨ y % 400 = 0) then 29 else 28)
  else if m = 4 ∨ m = 6 ∨ m = 9 ∨ m = 11 then 30
  else 31

/-- `resample("ME").mean()`: month-end buckets from the minimum to the
maximum month, labelled with the month's last day. -/
def resampleMonthMean (pairs : List (Date × Value)) : List (Date × Option Rat) :=
  match pairs.map (fun p => p.1.year * 12 + ((p.1.month : Int) - 1)) with
  | [] => []
  | k :: ks =>
    let lo := ks.foldl min k
    let hi := ks.foldl max k
    (List.range (hi - lo + 1).toNat).map (fun (i : Nat) =>
      let key := lo + (i : Int)
      let yr := key / 12
      let mo := (key % 12 + 1).toNat
      (⟨yr, mo, lastDay yr mo⟩,
        meanOfBucket ((pairs.filter
          (fun p => p.1.year * 12 + ((p.1.month : Int) - 1) = key)).map (·.2))))

/-- The data-preparation half of `popularity_trend`: parse
`release_date` to datetime, drop `NaT` rows, coerce `popularity` to
numeric when the column exists. -/
def trendPrep (tracks : DF) (c : Col) : DF :=
  let dates := c.vals.map toDatetimeV
  let mask := dates.map (fun v => v != Value.null)
  let df := maskRows (setCol tracks "release_date" Dtype.datetime dates) mask
  match getColE df "popularity" with
  | Except.ok pc => setCol df "popularity" Dtype.number (pc.vals.map toNumericV)
  | Except.error _ => df

/-- The resampling half of `popularity_trend`:
`df.set_index('release_date')['popularity'].resample(freq).mean()` —
raises `KeyError` when `popularity` is absent and `ValueError` on an
unknown frequency code. -/
def trendResample (df : DF) (freq : String) :
    Except String (List (Date × Option Rat)) :=
  match getColE df "release_date", getColE df "popularity" with
  | Except.ok dc, Except.ok pc =>
    let pairs := (dc.vals.zip pc.vals).filterMap (fun p =>
      match p.1 with
      | Value.date d => some (d, p.2)
      | _ => none)
    if freq = "YE" then Except.ok (resampleYearMean pairs)
    else if freq = "ME" then Except.ok (resampleMonthMean pairs)
    else Except.error ("ValueError: Invalid frequency: " ++ freq)
  | _, Except.error e => Except.error e
  | Except.error e, _ => Except.error e

/-- `popularity_trend(tracks, freq)` from `src/analyzer.py`: empty series
when `release_date` is absent; otherwise prepare the frame, map the
legacy `"Y"` code to `"YE"`, and resample. -/
def popularity_trend (tracks : DF) (freq : String) :
    Except String (List (Date × Option Rat)) :=
  if hasCol tracks "release_date" = false then Except.ok []
  else
    match getColE tracks "release_date" with
    | Except.error e => Except.error e
    | Except.ok c =>
      let freq := if strUpper freq = "Y" then "YE" else freq
      trendResample (trendPrep tracks c) freq

/-- Drop the longest whitespace suffix (helper view of the right half of
`trimChars`). -/
def dwEnd (p : Char → Bool) (l : List Char) : List Char :=
  (l.reverse.dropWhile p).reverse

/-- Every column label is a fixed point of the pandas label normalisation. -/
def NamesNormal (df : DF) : Prop :=
  ∀ c ∈ df.cols, normName c.name = c.name

/-! ## Concrete tables used by witnesses and counterexamples -/

/-- A small raw artist table: duplicate `id`, a missing genre, missing
follower and popularity cells. -/
def artistsW : DF := ⟨[
  ⟨"id", Dtype.object, [Value.str "x", Value.str "x"]⟩,
  ⟨"genres", Dtype.object, [Value.null, Value.str "['Pop']"]⟩,
  ⟨"followers", Dtype.number, [Value.null, Value.int 7]⟩,
  ⟨"popularity", Dtype.number, [Value.int 5, Value.null]⟩]⟩

/-- The cleaned form of `artistsW`. -/
def artistsWC : DF := ⟨[
  ⟨"id", Dtype.object, [Value.str "x"]⟩,
  ⟨"genres", Dtype.object, [Value.str "unknown"]⟩,
  ⟨"followers", Dtype.number, [Value.int 0]⟩,
  ⟨"popularity", Dtype.number, [Value.int 5]⟩]⟩

/-- A small raw track table: one unparseable release date and a missing
popularity cell. -/
def tracksW : DF := ⟨[
  ⟨"id", Dtype.object, [Value.str "t1", Value.str "t2"]⟩,
  ⟨"release_date", Dtype.object, [Value.str "2020-01-02", Value.str "bad"]⟩,
  ⟨"popularity", Dtype.number, [Value.int 4, Value.null]⟩]⟩

/-- The cleaned form of `tracksW`. -/
def tracksWC : DF := ⟨[
  ⟨"id", Dtype.object, [Value.str "t1", Value.str "t2"]⟩,
  ⟨"release_date", Dtype.datetime,
    [Value.date ⟨2020, 1, 2⟩, Value.null]⟩,
  ⟨"popularity", Dtype.number, [Value.int 4, Value.float ((4 : Int) : Rat)]⟩]⟩

/-- A small raw feature table: duplicate `track_id` and a missing numeric
cell. -/
def featuresW : DF := ⟨[
  ⟨"track_id", Dtype.object, [Value.str "t1", Value.str "t1"]⟩,
  ⟨"x", Dtype.number, [Value.null, Value.int 4]⟩]⟩

/-- The cleaned form of `featuresW`. -/
def featuresWC : DF := ⟨[
  ⟨"track_id", Dtype.object, [Value.str "t1"]⟩,
  ⟨"x", Dtype.number, [Value.float ((4 : Int) : Rat)]⟩]⟩

/-- The ordered list of column labels of a DataFrame. -/
def colNames (df : DF) : List String :=
  df.cols.map Col.name

/-- A one-column table with none of the columns the analyzers look for. -/
def plainT : DF := ⟨[⟨"name", Dtype.object, [Value.str "a", Value.str "b"]⟩]⟩

/-- A track table with `release_date` but no `popularity` column. -/
def noPopTrendT : DF :=
  ⟨[⟨"release_date", Dtype.object, [Value.str "2020-01-01"]⟩]⟩

/-- Does a cell belong in a number-dtype column (numeric or missing)? -/
def numOkV (v : Value) : Bool :=
  match v with
  | Value.null => true
  | Value.int _ => true
  | Value.float _ => true
  | _ => false

/-- Dtype coherence: every number-dtype column holds only numeric or
missing cells, the invariant every real pandas DataFrame satisfies. -/
def coherent (df : DF) : Bool :=
  df.cols.all (fun c => c.dtype != Dtype.number || c.vals.all numOkV)

/-- An artist table with one row whose `name` is missing. -/
def artistsNameT : DF := ⟨[
  ⟨"id", Dtype.object, [Value.str "a1"]⟩,
  ⟨"name", Dtype.object, [Value.null]⟩,
  ⟨"genres", Dtype.object, [Value.str "pop"]⟩,
  ⟨"followers", Dtype.number, [Value.int 1]⟩,
  ⟨"popularity", Dtype.number, [Value.int 2]⟩]⟩

/-- `clean_artists artistsNameT`: the missing name survives as missing. -/
def artistsNameTC : DF := ⟨[
  ⟨"id", Dtype.object, [Value.str "a1"]⟩,
  ⟨"name", Dtype.object, [Value.null]⟩,
  ⟨"genres", Dtype.object, [Value.str "pop"]⟩,
  ⟨"followers", Dtype.number, [Value.int 1]⟩,
  ⟨"popularity", Dtype.number, [Value.int 2]⟩]⟩

/-- What C5 predicts for `artistsNameT`: the missing name replaced by
`"Unknown"`. -/
def artistsNameTClaim : DF := ⟨[
  ⟨"id", Dtype.object, [Value.str "a1"]⟩,
  ⟨"name", Dtype.object, [Value.str "Unknown"]⟩,
  ⟨"genres", Dtype.object, [Value.str "pop"]⟩,
  ⟨"followers", Dtype.number, [Value.int 1]⟩,
  ⟨"popularity", Dtype.number, [Value.int 2]⟩]⟩

/-- An artist table with a negative `followers` value. -/
def artistsNegT : DF := ⟨[
  ⟨"id", Dtype.object, [Value.str "a1"]⟩,
  ⟨"genres", Dtype.object, [Value.str "pop"]⟩,
  ⟨"followers", Dtype.number, [Value.int (-5)]⟩,
  ⟨"popularity", Dtype.number, [Value.int 3]⟩]⟩

/-- `clean_artists artistsNegT`: the negative follower count survives. -/
def artistsNegTC : DF := ⟨[
  ⟨"id", Dtype.object, [Value.str "a1"]⟩,
  ⟨"genres", Dtype.object, [Value.str "pop"]⟩,
  ⟨"followers", Dtype.number, [Value.int (-5)]⟩,
  ⟨"popularity", Dtype.number, [Value.int 3]⟩]⟩

/-- An artist table whose `followers` column holds a non-numeric string. -/
def artistsBadT : DF := ⟨[
  ⟨"id", Dtype.object, [Value.str "a1"]⟩,
  ⟨"genres", Dtype.object, [Value.str "pop"]⟩,
  ⟨"followers", Dtype.object, [Value.str "abc"]⟩,
  ⟨"popularity", Dtype.number, [Value.int 3]⟩]⟩

/-- A feature table whose numeric column is entirely missing. -/
def featuresNullT : DF := ⟨[
  ⟨"track_id", Dtype.object, [Value.str "t1"]⟩,
  ⟨"x", Dtype.number, [Value.null]⟩]⟩

/-- `clean_features featuresNullT`: the all-missing numeric column keeps
its missing cell. -/
def featuresNullTC : DF := ⟨[
  ⟨"track_id", Dtype.object, [Value.str "t1"]⟩,
  ⟨"x", Dtype.number, [Value.null]⟩]⟩

/-- Look a key up in a `value_counts`-style association list (0 when the
key is absent). -/
def lookupCount (l : List (String × Nat)) (k : String) : Nat :=
  match l.find? (fun p => p.1 == k) with
  | some p => p.2
  | none => 0

/-- An artist table with unique ids and one missing genres cell. -/
def artistsUnkT : DF := ⟨[
  ⟨"id", Dtype.object, [Value.str "a1", Value.str "a2"]⟩,
  ⟨"genres", Dtype.object, [Value.null, Value.str "rock"]⟩,
  ⟨"followers", Dtype.number, [Value.int 1, Value.int 2]⟩,
  ⟨"popularity", Dtype.number, [Value.int 3, Value.int 4]⟩]⟩

/-- `clean_artists artistsUnkT`: the missing genre became `"unknown"`. -/
def artistsUnkTC : DF := ⟨[
  ⟨"id", Dtype.object, [Value.str "a1", Value.str "a2"]⟩,
  ⟨"genres", Dtype.object, [Value.str "unknown", Value.str "rock"]⟩,
  ⟨"followers", Dtype.number, [Value.int 1, Value.int 2]⟩,
  ⟨"popularity", Dtype.number, [Value.int 3, Value.int 4]⟩]⟩

/-- The C8 example: genre cells `["['pop','rock']", "pop, jazz", ["rock"]]`. -/
def genresExT : DF := ⟨[⟨"genres", Dtype.object,
  [Value.str "['pop','rock']", Value.str "pop, jazz", Value.vlist ["rock"]]⟩]⟩

/-- The C3 example: five tracks with popularities `[95, 90, 92, 88, 95]`. -/
def tracksExT : DF := ⟨[
  ⟨"name", Dtype.object, [Value.str "t1", Value.str "t2", Value.str "t3",
    Value.str "t4", Value.str "t5"]⟩,
  ⟨"popularity", Dtype.number, [Value.int 95, Value.int 90, Value.int 92,
    Value.int 88, Value.int 95]⟩]⟩

/-- What the code returns on `tracksExT` with threshold 90: the rows with
popularity above 90, descending, the two tied 95-popularity rows in their
original relative order (`nargsort` preserves tie order for descending
sorts, pandas GH #6399). -/
def topExpected : DF := ⟨[
  ⟨"name", Dtype.object, [Value.str "t1", Value.str "t5", Value.str "t3"]⟩,
  ⟨"popularity", Dtype.number, [Value.int 95, Value.int 95, Value.int 92]⟩]⟩

/-- The C7 example: popularities 50 and 70 in 2020, 90 in 2021, one row
with a missing release date (dropped) and one 2021 row with a missing
popularity (skipped by the mean). -/
def trendExT : DF := ⟨[
  ⟨"release_date", Dtype.object,
    [Value.str "2020-03-01", Value.str "2020-09-15", Value.str "2021-06-01",
     Value.null, Value.str "2021-08-01"]⟩,
  ⟨"popularity", Dtype.number,
    [Value.int 50, Value.int 70, Value.int 90, Value.int 1000, Value.null]⟩]⟩

/-- A track table with releases only in 2020 and 2022: the 2021 bucket is
empty. -/
def trendGapT : DF := ⟨[
  ⟨"release_date", Dtype.object, [Value.str "2020-06-01", Value.str "2022-06-01"]⟩,
  ⟨"popularity", Dtype.number, [Value.int 50, Value.int 90]⟩]⟩

/-! ## Character-level lemmas -/

theorem toNat_ofNat_chr (n : Nat) (h : n < 0xD800) : (Char.ofNat n).toNat = n := by
  simp [Char.ofNat, Nat.isValidChar, h, Char.toNat, Char.ofNatAux, UInt32.toNat,
    UInt32.ofNat', BitVec.toNat_ofNatLt]

theorem lowerChar_toNat_of_upper {c : Char} (h : 65 ≤ c.toNat ∧ c.toNat ≤ 90) :
    (lowerChar c).toNat = c.toNat + 32 := by
  rw [lowerChar, if_pos h, toNat_ofNat_chr]
  omega

theorem lowerChar_eq_self {c : Char} (h : ¬(65 ≤ c.toNat ∧ c.toNat ≤ 90)) :
    lowerChar c = c := by
  unfold lowerChar
  rw [if_neg h]

theorem lowerChar_idem (c : Char) : lowerChar (lowerChar c) = lowerChar c := by
  by_cases h : 65 ≤ c.toNat ∧ c.toNat ≤ 90
  · exact lowerChar_eq_self (by have := lowerChar_toNat_of_upper h; omega)
  · rw [lowerChar_eq_self h, lowerChar_eq_self h]

theorem isWsChar_iff {c : Char} :
    isWsChar c = true ↔ c.toNat = 32 ∨ c.toNat = 9 ∨ c.toNat = 10 ∨ c.toNat = 13 := by
  simp [isWsChar, Bool.or_eq_true, decide_eq_true_eq, or_assoc]

theorem isBrkChar_iff {c : Char} :
    isBrkChar c = true ↔ c.toNat = 91 ∨ c.toNat = 93 ∨ c.toNat = 39 := by
  simp [isBrkChar, Bool.or_eq_true, decide_eq_true_eq, or_assoc]

theorem isWs_lowerChar (c : Char) : isWsChar (lowerChar c) = isWsChar c := by
  by_cases h : 65 ≤ c.toNat ∧ c.toNat ≤ 90
  · have ht := lowerChar_toNat_of_upper h
    rw [Bool.eq_iff_iff, isWsChar_iff, isWsChar_iff]
    omega
  · rw [lowerChar_eq_self h]

theorem isBrk_lowerChar (c : Char) : isBrkChar (lowerChar c) = isBrkChar c := by
  by_cases h : 65 ≤ c.toNat ∧ c.toNat ≤ 90
  · have ht := lowerChar_toNat_of_upper h
    rw [Bool.eq_iff_iff, isBrkChar_iff, isBrkChar_iff]
    omega
  · rw [lowerChar_eq_self h]

theorem underscoreSpace_eq_self {c : Char} (h : ¬c = ' ') :
    underscoreSpace c = c := by
  unfold underscoreSpace
  rw [if_neg h]

theorem underscoreSpace_lowerChar_fix (c : Char) :
    lowerChar (underscoreSpace (lowerChar c)) = underscoreSpace (lowerChar c) ∧
    underscoreSpace (underscoreSpace (lowerChar c)) = underscoreSpace (lowerChar c) := by
  by_cases hsp : lowerChar c = ' '
  · rw [hsp]
    exact ⟨by decide, by decide⟩
  · rw [underscoreSpace_eq_self hsp]
    exact ⟨lowerChar_idem c, underscoreSpace_eq_self hsp⟩

theorem normName_idem (s : String) : normName (normName s) = normName s := by
  simp only [normName, List.map_map]
  congr 1
  apply List.map_congr_left
  intro c _
  have h := underscoreSpace_lowerChar_fix c
  simp only [Function.comp_apply, h.1, h.2]

/-! ## List-level string lemmas -/

theorem dropWhile_dropWhile (p : Char → Bool) (l : List Char) :
    (l.dropWhile p).dropWhile p = l.dropWhile p := by
  induction l with
  | nil => rfl
  | cons c cs ih =>
    by_cases h : p c
    · simp [List.dropWhile_cons, h, ih]
    · simp [List.dropWhile_cons, h]

theorem trimChars_eq_dwEnd (l : List Char) :
    trimChars l = dwEnd isWsChar (l.dropWhile isWsChar) := rfl

theorem dwEnd_dwEnd (p : Char → Bool) (l : List Char) :
    dwEnd p (dwEnd p l) = dwEnd p l := by
  simp [dwEnd, dropWhile_dropWhile]

theorem dwEnd_cons_neg {p : Char → Bool} {c : Char} (cs : List Char) (hc : p c = false) :
    dwEnd p (c :: cs) = c :: dwEnd p cs := by
  simp only [dwEnd, List.reverse_cons, List.dropWhile_append]
  by_cases he : (cs.reverse.dropWhile p).isEmpty
  · simp [he, List.dropWhile_cons, hc, List.isEmpty_iff.mp he]
  · simp [he]

theorem dropWhile_eq_nil_all {p : Char → Bool} {l : List Char}
    (h : l.dropWhile p = []) : ∀ x ∈ l, p x = true := by
  intro x hx
  exact List.dropWhile_eq_nil_iff.mp h x hx

theorem dropWhile_dwEnd_comm (p : Char → Bool) (l : List Char) :
    (dwEnd p l).dropWhile p = dwEnd p (l.dropWhile p) := by
  induction l with
  | nil => rfl
  | cons c cs ih =>
    by_cases hc : p c
    · have hstep : dwEnd p (c :: cs) =
          if (cs.reverse.dropWhile p).isEmpty then [] else c :: dwEnd p cs := by
        simp only [dwEnd, List.reverse_cons, List.dropWhile_append]
        by_cases he : (cs.reverse.dropWhile p).isEmpty
        · simp [he, List.dropWhile_cons, hc]
        · simp [he]
      by_cases he : (cs.reverse.dropWhile p).isEmpty
      · rw [hstep, if_pos he]
        have hall : ∀ x ∈ cs, p x = true := by
          intro x hx
          exact dropWhile_eq_nil_all (List.isEmpty_iff.mp he) x (List.mem_reverse.mpr hx)
        have hcs : cs.dropWhile p = [] := List.dropWhile_eq_nil_iff.mpr hall
        simp [List.dropWhile_cons, hc, hcs, dwEnd]
      · rw [hstep, if_neg he]
        rw [List.dropWhile_cons, if_pos hc, ih]
        simp [List.dropWhile_cons, hc]
    · rw [dwEnd_cons_neg cs (by simpa using hc)]
      rw [List.dropWhile_cons, if_neg hc, List.dropWhile_cons, if_neg hc]
      rw [dwEnd_cons_neg cs (by simpa using hc)]

theorem trimChars_idem (l : List Char) : trimChars (trimChars l) = trimChars l := by
  rw [trimChars_eq_dwEnd l, trimChars_eq_dwEnd, dropWhile_dwEnd_comm,
    dropWhile_dropWhile, dwEnd_dwEnd]

theorem dropWhile_map_inv {f : Char → Char} {p : Char → Bool}
    (hf : ∀ c, p (f c) = p c) (l : List Char) :
    (l.map f).dropWhile p = (l.dropWhile p).map f := by
  rw [List.dropWhile_map]
  have hpf : (p ∘ f) = p := funext hf
  rw [hpf]

theorem trimChars_map_inv {f : Char → Char} (hf : ∀ c, isWsChar (f c) = isWsChar c)
    (l : List Char) : trimChars (l.map f) = (trimChars l).map f := by
  unfold trimChars
  rw [dropWhile_map_inv hf, ← List.map_reverse, dropWhile_map_inv hf, List.map_reverse]

theorem mem_trimChars {x : Char} {l : List Char} (h : x ∈ trimChars l) : x ∈ l := by
  unfold trimChars at h
  rw [List.mem_reverse] at h
  have h2 := (List.dropWhile_sublist isWsChar).mem h
  rw [List.mem_reverse] at h2
  exact (List.dropWhile_sublist isWsChar).mem h2

/-! ## The genres-formatting chain is a closure -/

theorem cleanGenres_fix (s : String) :
    removeBrk (strLower (strTrim (removeBrk s))) = strLower (strTrim (removeBrk s)) ∧
    strTrim (strLower (strTrim (removeBrk s))) = strLower (strTrim (removeBrk s)) ∧
    strLower (strLower (strTrim (removeBrk s))) = strLower (strTrim (removeBrk s)) := by
  refine ⟨?_, ?_, ?_⟩
  · simp only [removeBrk, strLower, strTrim]
    apply congrArg String.mk
    apply List.filter_eq_self.mpr
    intro c hc
    rcases List.mem_map.mp hc with ⟨c0, hc0, rfl⟩
    have hmem : c0 ∈ s.data.filter (fun c => !isBrkChar c) := mem_trimChars hc0
    have hq : (!isBrkChar c0) = true := (List.mem_filter.mp hmem).2
    rw [Bool.not_eq_true'] at hq ⊢
    rw [isBrk_lowerChar, hq]
  · simp only [strLower, strTrim]
    apply congrArg String.mk
    rw [trimChars_map_inv isWs_lowerChar, trimChars_idem]
  · simp only [strLower, List.map_map]
    apply congrArg String.mk
    apply List.map_congr_left
    intro c _
    exact lowerChar_idem c

theorem cleanGenresV_image_idem (v : Value) :
    cleanGenresV (cleanGenresV v) = cleanGenresV v := by
  obtain ⟨h1, h2, h3⟩ := cleanGenres_fix (valToStr v)
  show Value.str (strLower (strTrim (removeBrk (valToStr
    (Value.str (strLower (strTrim (removeBrk (valToStr v))))))))) = _
  rw [show valToStr (Value.str (strLower (strTrim (removeBrk (valToStr v))))) =
    strLower (strTrim (removeBrk (valToStr v))) from rfl, h1, h2, h3]
  rfl

theorem cleanGenresV_ne_null (v : Value) : cleanGenresV v ≠ Value.null := by
  simp [cleanGenresV]

/-! ## Scalar-operation lemmas -/

theorem fillnaV_of_ne_null {w v : Value} (hv : v ≠ Value.null) : fillnaV w v = v :=
  if_neg hv

theorem fillnaV_null (w : Value) : fillnaV w Value.null = w := rfl

theorem map_fillnaV_of_no_null {w : Value} {l : List Value}
    (h : ∀ v ∈ l, v ≠ Value.null) : l.map (fillnaV w) = l := by
  conv_rhs => rw [← List.map_id l]
  apply List.map_congr_left
  intro v hv
  exact fillnaV_of_ne_null (h v hv)

theorem map_fillnaV_null (l : List Value) : l.map (fillnaV Value.null) = l := by
  conv_rhs => rw [← List.map_id l]
  apply List.map_congr_left
  intro v _
  by_cases hv : v = Value.null
  · rw [hv]; rfl
  · exact fillnaV_of_ne_null hv

theorem toDatetimeV_image_idem (v : Value) :
    toDatetimeV (toDatetimeV v) = toDatetimeV v := by
  cases v with
  | str s =>
    rcases hds : parseDate s with _ | d
    · simp [toDatetimeV, hds]
    · simp [toDatetimeV, hds]
  | _ => rfl

theorem mapM_astypeIntV_ints (ints : List Int) :
    (ints.map Value.int).mapM astypeIntV = Except.ok ints := by
  induction ints with
  | nil => rfl
  | cons n l ih =>
    simp only [List.map_cons, List.mapM_cons, ih, astypeIntV]
    rfl

theorem exists_ints_of_all_int {vals : List Value}
    (h : ∀ v ∈ vals, ∃ n : Int, v = Value.int n) :
    ∃ ints : List Int, ints.map Value.int = vals := by
  induction vals with
  | nil => exact ⟨[], rfl⟩
  | cons v l ih =>
    obtain ⟨n, rfl⟩ := h v (List.mem_cons_self v l)
    obtain ⟨ints, hints⟩ := ih (fun w hw => h w (List.mem_cons_of_mem _ hw))
    exact ⟨n :: ints, by rw [List.map_cons, hints]⟩

theorem length_insertRat (q : Rat) (l : List Rat) :
    (insertRat q l).length = l.length + 1 := by
  induction l with
  | nil => rfl
  | cons r t ih =>
    unfold insertRat
    by_cases h : q ≤ r
    · rw [if_pos h]
      rfl
    · rw [if_neg h, List.length_cons, ih, List.length_cons]

theorem length_sortRats (l : List Rat) : (sortRats l).length = l.length := by
  induction l with
  | nil => rfl
  | cons q t ih =>
    unfold sortRats
    rw [length_insertRat, ih, List.length_cons]

theorem medianV_null_iff (l : List Value) :
    medianV l = Value.null ↔ l.filterMap ratOfV = [] := by
  unfold medianV
  by_cases h : (sortRats (l.filterMap ratOfV)).length = 0
  · rw [if_pos h]
    rw [length_sortRats] at h
    simp [List.length_eq_zero.mp h]
  · rw [if_neg h]
    constructor
    · intro hc
      exfalso
      revert hc
      split <;> simp
    · intro hc
      rw [length_sortRats, hc] at h
      simp at h

/-! ## Mask lemmas -/

theorem applyMask_mem {α : Type} {m : List Bool} {l : List α} {x : α}
    (h : x ∈ applyMask m l) : x ∈ l := by
  induction l generalizing m with
  | nil =>
    cases m with
    | nil => simpa [applyMask] using h
    | cons b ms => simpa [applyMask] using h
  | cons v vs ih =>
    cases m with
    | nil => simpa [applyMask] using h
    | cons b ms =>
      cases b with
      | false => exact List.mem_cons_of_mem _ (ih (by simpa [applyMask] using h))
      | true =>
        rw [show applyMask (true :: ms) (v :: vs) = v :: applyMask ms vs from rfl] at h
        rcases List.mem_cons.mp h with rfl | h2
        · exact List.mem_cons_self _ _
        · exact List.mem_cons_of_mem _ (ih h2)

theorem applyMask_replicate_true {α : Type} (n : Nat) (l : List α) :
    applyMask (List.replicate n true) l = l := by
  induction n generalizing l with
  | zero => cases l <;> rfl
  | succ k ih =>
    cases l with
    | nil => rfl
    | cons v vs => rw [List.replicate_succ]; exact congrArg (v :: ·) (ih vs)

theorem keepMask_all_true {ks : List Value} (hnd : ks.Nodup) :
    ∀ seen, (∀ x ∈ ks, x ∉ seen) → keepMask seen ks = List.replicate ks.length true := by
  induction ks with
  | nil => intro seen _; rfl
  | cons v vs ih =>
    intro seen hdisj
    rw [keepMask, if_neg (hdisj v (List.mem_cons_self v vs))]
    rw [List.length_cons, List.replicate_succ]
    congr 1
    apply ih (List.Nodup.of_cons hnd)
    intro x hx hmem
    rcases List.mem_cons.mp hmem with rfl | hxs
    · exact (List.nodup_cons.mp hnd).1 hx
    · exact hdisj x (List.mem_cons_of_mem _ hx) hxs

theorem applyMask_keepMask_sel (ks : List Value) :
    ∀ seen, (applyMask (keepMask seen ks) ks).Nodup ∧
      ∀ x ∈ applyMask (keepMask seen ks) ks, x ∉ seen := by
  induction ks with
  | nil => intro seen; exact ⟨List.nodup_nil, by intro x hx; cases hx⟩
  | cons v vs ih =>
    intro seen
    by_cases hv : v ∈ seen
    · rw [keepMask, if_pos hv]
      rw [show applyMask (false :: keepMask seen vs) (v :: vs) =
        applyMask (keepMask seen vs) vs from rfl]
      exact ih seen
    · rw [keepMask, if_neg hv]
      rw [show applyMask (true :: keepMask (v :: seen) vs) (v :: vs) =
        v :: applyMask (keepMask (v :: seen) vs) vs from rfl]
      obtain ⟨h1, h2⟩ := ih (v :: seen)
      refine ⟨List.nodup_cons.mpr ⟨?_, h1⟩, ?_⟩
      · intro hmem
        exact h2 v hmem (List.mem_cons_self v seen)
      · intro x hx
        rcases List.mem_cons.mp hx with rfl | hx2
        · exact hv
        · intro hxs
          exact h2 x hx2 (List.mem_cons_of_mem _ hxs)

/-! ## Column-lookup lemmas -/

theorem mem_setColAux {c : Col} {k : String} {dt : Dtype} {vs : List Value} :
    ∀ {cols : List Col}, c ∈ setColAux k dt vs cols → c = ⟨k, dt, vs⟩ ∨ c ∈ cols := by
  intro cols h
  induction cols with
  | nil => simpa [setColAux] using h
  | cons c0 cs ih =>
    rw [setColAux] at h
    by_cases h0 : c0.name == k
    · rw [if_pos h0] at h
      rcases List.mem_cons.mp h with rfl | h2
      · exact Or.inl rfl
      · exact Or.inr (List.mem_cons_of_mem _ h2)
    · rw [if_neg h0] at h
      rcases List.mem_cons.mp h with rfl | h2
      · exact Or.inr (List.mem_cons_self _ _)
      · rcases ih h2 with h3 | h3
        · exact Or.inl h3
        · exact Or.inr (List.mem_cons_of_mem _ h3)

theorem getColE_setCol_same (df : DF) (k : String) (dt : Dtype) (vs : List Value) :
    getColE (setCol df k dt vs) k = Except.ok ⟨k, dt, vs⟩ := by
  show (match (setColAux k dt vs df.cols).find? (fun c => c.name == k) with
    | some c => Except.ok c
    | none => Except.error ("KeyError: " ++ k)) = _
  induction df.cols with
  | nil => simp [setColAux, List.find?]
  | cons c0 cs ih =>
    rw [setColAux]
    by_cases h0 : c0.name == k
    · rw [if_pos h0]
      simp [List.find?]
    · rw [if_neg h0]
      rw [List.find?]
      simp only [h0]
      exact ih

theorem getColE_setCol_other {k' k : String} (h : k' ≠ k) (df : DF) (dt : Dtype)
    (vs : List Value) : getColE (setCol df k dt vs) k' = getColE df k' := by
  show (match (setColAux k dt vs df.cols).find? (fun c => c.name == k') with
    | some c => Except.ok c
    | none => Except.error ("KeyError: " ++ k')) = getColE df k'
  unfold getColE
  induction df.cols with
  | nil =>
    have : (k == k') = false := by
      simp [beq_eq_false_iff_ne]
      exact fun he => h he.symm
    simp [setColAux, List.find?, this]
  | cons c0 cs ih =>
    rw [setColAux]
    by_cases h0 : c0.name == k
    · rw [if_pos h0]
      have hk : c0.name = k := eq_of_beq h0
      have : (k == k') = false := by
        simp [beq_eq_false_iff_ne]
        exact fun he => h he.symm
      have hc0 : (c0.name == k') = false := by rw [hk]; exact this
      rw [List.find?, List.find?]
      simp only [this, hc0]
    · rw [if_neg h0]
      rw [List.find?, List.find?]
      by_cases h1 : c0.name == k'
      · simp only [h1]
      · simp only [Bool.of_not_eq_true h1]
        exact ih

theorem setColAux_self {k : String} {c : Col} :
    ∀ {cols : List Col}, cols.find? (fun c0 => c0.name == k) = some c →
      setColAux k c.dtype c.vals cols = cols := by
  intro cols h
  induction cols with
  | nil => simp [List.find?] at h
  | cons c0 cs ih =>
    rw [List.find?] at h
    rw [setColAux]
    by_cases h0 : c0.name == k
    · simp only [h0] at h
      rw [if_pos h0]
      have hk : c0.name = k := eq_of_beq h0
      have hc : c = c0 := by
        cases h
        rfl
      rw [hc, ← hk]
    · simp only [Bool.of_not_eq_true h0] at h
      rw [if_neg h0]
      rw [ih h]

theorem setCol_self {df : DF} {k : String} {c : Col}
    (h : getColE df k = Except.ok c) : setCol df k c.dtype c.vals = df := by
  unfold getColE at h
  rcases hf : df.cols.find? (fun c0 => c0.name == k) with _ | c1
  · rw [hf] at h
    cases h
  · rw [hf] at h
    have hc : c1 = c := by
      cases h
      rfl
    unfold setCol
    rw [setColAux_self (hc ▸ hf)]

theorem getColE_mapCols (f : Col → Col) (hf : ∀ c, (f c).name = c.name)
    (cols : List Col) (k : String) :
    getColE ⟨cols.map f⟩ k = (getColE ⟨cols⟩ k).map f := by
  unfold getColE
  induction cols with
  | nil => rfl
  | cons c0 cs ih =>
    rw [List.map_cons, List.find?, List.find?, hf c0]
    by_cases h0 : c0.name == k
    · simp only [h0]
      rfl
    · simp only [Bool.of_not_eq_true h0]
      exact ih

/-! ## Normalised column names -/

theorem namesNormal_renameCols (t : DF) : NamesNormal (renameCols t) := by
  intro c hc
  rcases List.mem_map.mp hc with ⟨c0, _, rfl⟩
  exact normName_idem c0.name

theorem namesNormal_setCol {df : DF} {k : String} (hdf : NamesNormal df)
    (hk : normName k = k) (dt : Dtype) (vs : List Value) :
    NamesNormal (setCol df k dt vs) := by
  intro c hc
  rcases mem_setColAux hc with rfl | hc2
  · exact hk
  · exact hdf c hc2

theorem namesNormal_mapCols (f : Col → Col) (hf : ∀ c, (f c).name = c.name)
    {cols : List Col} (hdf : NamesNormal ⟨cols⟩) : NamesNormal ⟨cols.map f⟩ := by
  intro c hc
  rcases List.mem_map.mp hc with ⟨c0, hc0, rfl⟩
  rw [hf c0]
  exact hdf c0 hc0

theorem renameCols_eq_self {df : DF} (h : NamesNormal df) : renameCols df = df := by
  unfold renameCols
  conv_rhs => rw [show df = ⟨df.cols⟩ from rfl, ← List.map_id df.cols]
  congr 1
  apply List.map_congr_left
  intro c hc
  have hn := h c hc
  cases c with
  | mk nm dt vs =>
    simp only [id_eq]
    exact congrArg (fun s => Col.mk s dt vs) hn

/-! ## Row-mask lemmas on DataFrames -/

theorem maskRows_replicate_true (df : DF) (n : Nat) :
    maskRows df (List.replicate n true) = df := by
  unfold maskRows
  conv_rhs => rw [show df = ⟨df.cols⟩ from rfl, ← List.map_id df.cols]
  congr 1
  apply List.map_congr_left
  intro c _
  cases c with
  | mk nm dt vs =>
    simp only [id_eq]
    exact congrArg (Col.mk nm dt) (applyMask_replicate_true _ vs)

theorem getColE_maskRows (df : DF) (m : List Bool) (k : String) :
    getColE (maskRows df m) k =
      (getColE df k).map (fun c => { c with vals := applyMask m c.vals }) :=
  getColE_mapCols (fun c => { c with vals := applyMask m c.vals }) (fun _ => rfl) df.cols k

theorem getColE_fillNumericMedians (df : DF) (k : String) :
    getColE (fillNumericMedians df) k = (getColE df k).map fillColMedian := by
  apply getColE_mapCols
  intro c
  unfold fillColMedian
  by_cases h : c.dtype = Dtype.number
  · rw [if_pos h]
  · rw [if_neg h]


/-! ## Second-pass no-op lemmas for the cleaner stages -/

theorem fillnaCol_self {df : DF} {k : String} {c : Col} {w : Value}
    (h : getColE df k = Except.ok c) (hv : ∀ v ∈ c.vals, v ≠ Value.null) :
    fillnaCol df k w = Except.ok df := by
  unfold fillnaCol
  rw [h]
  show Except.ok (setCol df k c.dtype (c.vals.map (fillnaV w))) = Except.ok df
  rw [map_fillnaV_of_no_null hv, setCol_self h]

theorem intCoerceCol_self {df : DF} {k : String} {c : Col}
    (h : getColE df k = Except.ok c) (hdt : c.dtype = Dtype.number)
    (hv : ∀ v ∈ c.vals, ∃ n : Int, v = Value.int n) :
    intCoerceCol df k = Except.ok df := by
  unfold intCoerceCol
  rw [h]
  obtain ⟨ints, hints⟩ := exists_ints_of_all_int hv
  have hnn : ∀ v ∈ c.vals, v ≠ Value.null := by
    intro v hvm
    obtain ⟨n, rfl⟩ := hv v hvm
    intro hcon
    cases hcon
  show ((c.vals.map (fillnaV (Value.int 0))).mapM astypeIntV).bind _ = _
  rw [map_fillnaV_of_no_null hnn, ← hints, mapM_astypeIntV_ints]
  show Except.ok (setCol df k Dtype.number (ints.map Value.int)) = _
  rw [hints, ← hdt, setCol_self h]

theorem mapColE_self {df : DF} {k : String} {c : Col} {dt : Dtype} {f : Value → Value}
    (h : getColE df k = Except.ok c) (hdt : c.dtype = dt)
    (hv : ∀ v ∈ c.vals, f v = v) : mapColE df k dt f = Except.ok df := by
  unfold mapColE
  rw [h]
  show Except.ok (setCol df k dt (c.vals.map f)) = _
  have : c.vals.map f = c.vals := by
    conv_rhs => rw [← List.map_id c.vals]
    exact List.map_congr_left hv
  rw [this, ← hdt, setCol_self h]

theorem dropDup_self {df : DF} {k : String} {c : Col}
    (h : getColE df k = Except.ok c) (hnd : c.vals.Nodup) :
    dropDup df k = Except.ok df := by
  unfold dropDup
  rw [h]
  show Except.ok (maskRows df (keepMask [] c.vals)) = _
  rw [keepMask_all_true hnd [] (by intro x _ hx; cases hx), maskRows_replicate_true]

/-! ## Median fill is stable under a second pass -/

theorem fill_median_vals_cases (vals : List Value) :
    (∀ v ∈ vals.map (fillnaV (medianV vals)), v ≠ Value.null) ∨
    (vals.filterMap ratOfV = [] ∧ vals.map (fillnaV (medianV vals)) = vals) := by
  rcases hm : medianV vals with _ | n | q | s | l | d
  · right
    exact ⟨(medianV_null_iff vals).mp hm, map_fillnaV_null vals⟩
  all_goals
    left
    intro v hv
    rcases List.mem_map.mp hv with ⟨v0, _, rfl⟩
    by_cases hv0 : v0 = Value.null
    · rw [hv0, fillnaV_null]
      intro hcon
      cases hcon
    · rw [fillnaV_of_ne_null hv0]
      exact hv0

theorem filterMap_ratOfV_nil_of_subset {l l2 : List Value}
    (h : l.filterMap ratOfV = []) (hsub : ∀ v ∈ l2, v ∈ l) :
    l2.filterMap ratOfV = [] := by
  rw [List.filterMap_eq_nil] at h ⊢
  intro v hv
  exact h v (hsub v hv)

theorem fill_vals_twice (vals : List Value) (m : List Bool) :
    (applyMask m (vals.map (fillnaV (medianV vals)))).map
      (fillnaV (medianV (applyMask m (vals.map (fillnaV (medianV vals)))))) =
      applyMask m (vals.map (fillnaV (medianV vals))) := by
  rcases fill_median_vals_cases vals with hleft | ⟨hnil, heq⟩
  · apply map_fillnaV_of_no_null
    intro v hv
    exact hleft v (applyMask_mem hv)
  · rw [heq]
    have hnil2 : (applyMask m vals).filterMap ratOfV = [] :=
      filterMap_ratOfV_nil_of_subset hnil (fun v hv => applyMask_mem hv)
    rw [(medianV_null_iff _).mpr hnil2, map_fillnaV_null]

theorem fillColMedian_masked_idem (c : Col) (m : List Bool) :
    fillColMedian { c with vals := applyMask m (fillColMedian c).vals } =
      { c with vals := applyMask m (fillColMedian c).vals } := by
  cases c with
  | mk nm dt vs =>
    by_cases hdt : dt = Dtype.number
    · subst hdt
      have h2 := fill_vals_twice vs m
      simp only [fillColMedian, if_pos rfl]
      simp only [fillColMedian] at h2 ⊢
      simp [h2]
    · simp [fillColMedian, hdt]

theorem fillNumericMedians_masked_idem (df : DF) (m : List Bool) :
    fillNumericMedians (maskRows (fillNumericMedians df) m) =
      maskRows (fillNumericMedians df) m := by
  unfold fillNumericMedians maskRows
  simp only [List.map_map]
  congr 1
  apply List.map_congr_left
  intro c _
  simp only [Function.comp_apply]
  have hn : (fillColMedian c).name = c.name := by
    unfold fillColMedian
    split <;> rfl
  have hd : (fillColMedian c).dtype = c.dtype := by
    unfold fillColMedian
    split <;> rfl
  rw [hn, hd]
  exact fillColMedian_masked_idem c m

/-! ## Evaluation lemmas for the cleaner stages -/

theorem fillnaCol_eq_ok {df : DF} {k : String} {c : Col} (w : Value)
    (h : getColE df k = Except.ok c) :
    fillnaCol df k w = Except.ok (setCol df k c.dtype (c.vals.map (fillnaV w))) := by
  unfold fillnaCol
  rw [h]
  rfl

theorem fillnaCol_eq_err {df : DF} {k : String} {e : String} (w : Value)
    (h : getColE df k = Except.error e) : fillnaCol df k w = Except.error e := by
  unfold fillnaCol
  rw [h]
  rfl

theorem mapColE_eq_ok {df : DF} {k : String} {c : Col} (dt : Dtype) (f : Value → Value)
    (h : getColE df k = Except.ok c) :
    mapColE df k dt f = Except.ok (setCol df k dt (c.vals.map f)) := by
  unfold mapColE
  rw [h]
  rfl

theorem mapColE_eq_err {df : DF} {k : String} {e : String} (dt : Dtype) (f : Value → Value)
    (h : getColE df k = Except.error e) : mapColE df k dt f = Except.error e := by
  unfold mapColE
  rw [h]
  rfl

theorem intCoerceCol_eq_ok {df : DF} {k : String} {c : Col} {ints : List Int}
    (h : getColE df k = Except.ok c)
    (hm : (c.vals.map (fillnaV (Value.int 0))).mapM astypeIntV = Except.ok ints) :
    intCoerceCol df k = Except.ok (setCol df k Dtype.number (ints.map Value.int)) := by
  unfold intCoerceCol
  rw [h]
  show ((c.vals.map (fillnaV (Value.int 0))).mapM astypeIntV).bind _ = _
  rw [hm]
  rfl

theorem intCoerceCol_eq_err {df : DF} {k : String} {e : String}
    (h : getColE df k = Except.error e) : intCoerceCol df k = Except.error e := by
  unfold intCoerceCol
  rw [h]
  rfl

theorem dropDup_eq_ok {df : DF} {k : String} {c : Col}
    (h : getColE df k = Except.ok c) :
    dropDup df k = Except.ok (maskRows df (keepMask [] c.vals)) := by
  unfold dropDup
  rw [h]
  rfl

theorem dropDup_eq_err {df : DF} {k : String} {e : String}
    (h : getColE df k = Except.error e) : dropDup df k = Except.error e := by
  unfold dropDup
  rw [h]
  rfl

theorem fillColMedian_name (c : Col) : (fillColMedian c).name = c.name := by
  unfold fillColMedian
  split <;> rfl

theorem namesNormal_fillNumericMedians {df : DF} (h : NamesNormal df) :
    NamesNormal (fillNumericMedians df) :=
  namesNormal_mapCols fillColMedian fillColMedian_name h

theorem namesNormal_maskRows {df : DF} (m : List Bool) (h : NamesNormal df) :
    NamesNormal (maskRows df m) :=
  namesNormal_mapCols (fun c => { c with vals := applyMask m c.vals }) (fun _ => rfl) h

/-! ## Idempotence of the cleaners -/

theorem clean_features_idem {t u : DF} (h : clean_features t = Except.ok u) :
    clean_features u = Except.ok u := by
  unfold clean_features at h ⊢
  rcases hid : getColE (fillNumericMedians (renameCols t)) "track_id" with e | cid
  · rw [dropDup_eq_err hid] at h
    cases h
  · rw [dropDup_eq_ok hid] at h
    have hu : maskRows (fillNumericMedians (renameCols t)) (keepMask [] cid.vals) = u := by
      cases h
      rfl
    have hnn : NamesNormal u := by
      rw [← hu]
      exact namesNormal_maskRows _
        (namesNormal_fillNumericMedians (namesNormal_renameCols t))
    rw [renameCols_eq_self hnn]
    have hfm : fillNumericMedians u = u := by
      rw [← hu]
      exact fillNumericMedians_masked_idem (renameCols t) _
    rw [hfm]
    have hcu : getColE u "track_id" =
        Except.ok { cid with vals := applyMask (keepMask [] cid.vals) cid.vals } := by
      rw [← hu, getColE_maskRows, hid]
      rfl
    exact dropDup_self hcu (applyMask_keepMask_sel cid.vals []).1

theorem fillColMedian_non_number {c : Col} (h : ¬c.dtype = Dtype.number) :
    fillColMedian c = c := by
  unfold fillColMedian
  rw [if_neg h]

theorem clean_tracks_idem {t u : DF} (h : clean_tracks t = Except.ok u) :
    clean_tracks u = Except.ok u := by
  unfold clean_tracks at h ⊢
  rcases hrd : getColE (renameCols t) "release_date" with e | crd
  · rw [mapColE_eq_err _ _ hrd] at h
    cases h
  · rw [mapColE_eq_ok _ _ hrd] at h
    generalize hdf2 : setCol (renameCols t) "release_date" Dtype.datetime
      (crd.vals.map toDatetimeV) = df2 at h
    simp only [Except.bind] at h
    rcases hid : getColE (fillNumericMedians df2) "id" with e | cid
    · rw [dropDup_eq_err hid] at h
      cases h
    · rw [dropDup_eq_ok hid] at h
      have hu : maskRows (fillNumericMedians df2) (keepMask [] cid.vals) = u := by
        cases h
        rfl
      have hnn : NamesNormal u := by
        rw [← hu]
        apply namesNormal_maskRows
        apply namesNormal_fillNumericMedians
        rw [← hdf2]
        exact namesNormal_setCol (namesNormal_renameCols t) (by decide) _ _
      rw [renameCols_eq_self hnn]
      have hgrd : getColE u "release_date" = Except.ok
          ⟨"release_date", Dtype.datetime,
            applyMask (keepMask [] cid.vals) (crd.vals.map toDatetimeV)⟩ := by
        rw [← hu, getColE_maskRows, getColE_fillNumericMedians, ← hdf2,
          getColE_setCol_same]
        simp only [Except.map]
        rw [fillColMedian_non_number (by simp)]
      have hfix : ∀ v ∈ applyMask (keepMask [] cid.vals) (crd.vals.map toDatetimeV),
          toDatetimeV v = v := by
        intro v hv
        rcases List.mem_map.mp (applyMask_mem hv) with ⟨v0, _, rfl⟩
        exact toDatetimeV_image_idem v0
      rw [mapColE_self hgrd rfl hfix]
      simp only [Except.bind]
      have hfm : fillNumericMedians u = u := by
        rw [← hu]
        exact fillNumericMedians_masked_idem df2 _
      rw [hfm]
      have hcu : getColE u "id" =
          Except.ok { cid with vals := applyMask (keepMask [] cid.vals) cid.vals } := by
        rw [← hu, getColE_maskRows, hid]
        rfl
      exact dropDup_self hcu (applyMask_keepMask_sel cid.vals []).1

theorem intCoerceCol_eq_err2 {df : DF} {k : String} {c : Col} {e : String}
    (h : getColE df k = Except.ok c)
    (hm : (c.vals.map (fillnaV (Value.int 0))).mapM astypeIntV = Except.error e) :
    intCoerceCol df k = Except.error e := by
  unfold intCoerceCol
  rw [h]
  show ((c.vals.map (fillnaV (Value.int 0))).mapM astypeIntV).bind _ = _
  rw [hm]
  rfl

theorem clean_artists_idem {t u : DF} (h : clean_artists t = Except.ok u) :
    clean_artists u = Except.ok u := by
  unfold clean_artists at h ⊢
  rcases hcg : getColE (renameCols t) "genres" with e | cg
  · rw [fillnaCol_eq_err _ hcg] at h
    cases h
  rw [fillnaCol_eq_ok _ hcg] at h
  generalize hdf1 : setCol (renameCols t) "genres" cg.dtype
    (cg.vals.map (fillnaV (Value.str "Unknown"))) = df1 at h
  simp only [Except.bind] at h
  rcases hcf : getColE df1 "followers" with e | cf
  · rw [intCoerceCol_eq_err hcf] at h
    cases h
  rcases hmf : (cf.vals.map (fillnaV (Value.int 0))).mapM astypeIntV with e | fints
  · rw [intCoerceCol_eq_err2 hcf hmf] at h
    cases h
  rw [intCoerceCol_eq_ok hcf hmf] at h
  generalize hdf2 : setCol df1 "followers" Dtype.number (fints.map Value.int) = df2 at h
  simp only [Except.bind] at h
  rcases hcp : getColE df2 "popularity" with e | cp
  · rw [intCoerceCol_eq_err hcp] at h
    cases h
  rcases hmp : (cp.vals.map (fillnaV (Value.int 0))).mapM astypeIntV with e | pints
  · rw [intCoerceCol_eq_err2 hcp hmp] at h
    cases h
  rw [intCoerceCol_eq_ok hcp hmp] at h
  generalize hdf3 : setCol df2 "popularity" Dtype.number (pints.map Value.int) = df3 at h
  simp only [Except.bind] at h
  rcases hcg3 : getColE df3 "genres" with e | cg3
  · rw [mapColE_eq_err _ _ hcg3] at h
    cases h
  rw [mapColE_eq_ok _ _ hcg3] at h
  generalize hdf4 : setCol df3 "genres" Dtype.object (cg3.vals.map cleanGenresV) = df4 at h
  simp only [Except.bind] at h
  rcases hid : getColE df4 "id" with e | cid
  · rw [dropDup_eq_err hid] at h
    cases h
  rw [dropDup_eq_ok hid] at h
  have hu : maskRows df4 (keepMask [] cid.vals) = u := by
    cases h
    rfl
  -- column labels of `u` are all normalisation fixed points
  have hnn : NamesNormal u := by
    rw [← hu]
    apply namesNormal_maskRows
    rw [← hdf4]
    apply namesNormal_setCol _ (by decide)
    rw [← hdf3]
    apply namesNormal_setCol _ (by decide)
    rw [← hdf2]
    apply namesNormal_setCol _ (by decide)
    rw [← hdf1]
    exact namesNormal_setCol (namesNormal_renameCols t) (by decide) _ _
  rw [renameCols_eq_self hnn]
  -- the genres column of `u`
  have hgu : getColE u "genres" = Except.ok
      ⟨"genres", Dtype.object,
        applyMask (keepMask [] cid.vals) (cg3.vals.map cleanGenresV)⟩ := by
    rw [← hu, getColE_maskRows, ← hdf4, getColE_setCol_same]
    rfl
  have hgnn : ∀ v ∈ applyMask (keepMask [] cid.vals) (cg3.vals.map cleanGenresV),
      v ≠ Value.null := by
    intro v hv
    rcases List.mem_map.mp (applyMask_mem hv) with ⟨v0, _, rfl⟩
    exact cleanGenresV_ne_null v0
  rw [fillnaCol_self hgu hgnn]
  simp only [Except.bind]
  -- the followers column of `u`
  have hfu : getColE u "followers" = Except.ok
      ⟨"followers", Dtype.number,
        applyMask (keepMask [] cid.vals) (fints.map Value.int)⟩ := by
    rw [← hu, getColE_maskRows, ← hdf4, getColE_setCol_other (by decide), ← hdf3,
      getColE_setCol_other (by decide), ← hdf2, getColE_setCol_same]
    rfl
  have hfint : ∀ v ∈ applyMask (keepMask [] cid.vals) (fints.map Value.int),
      ∃ n : Int, v = Value.int n := by
    intro v hv
    rcases List.mem_map.mp (applyMask_mem hv) with ⟨n, _, rfl⟩
    exact ⟨n, rfl⟩
  rw [intCoerceCol_self hfu rfl hfint]
  simp only [Except.bind]
  -- the popularity column of `u`
  have hpu : getColE u "popularity" = Except.ok
      ⟨"popularity", Dtype.number,
        applyMask (keepMask [] cid.vals) (pints.map Value.int)⟩ := by
    rw [← hu, getColE_maskRows, ← hdf4, getColE_setCol_other (by decide), ← hdf3,
      getColE_setCol_same]
    rfl
  have hpint : ∀ v ∈ applyMask (keepMask [] cid.vals) (pints.map Value.int),
      ∃ n : Int, v = Value.int n := by
    intro v hv
    rcases List.mem_map.mp (applyMask_mem hv) with ⟨n, _, rfl⟩
    exact ⟨n, rfl⟩
  rw [intCoerceCol_self hpu rfl hpint]
  simp only [Except.bind]
  -- a second genres formatting pass changes nothing
  have hgfix : ∀ v ∈ applyMask (keepMask [] cid.vals) (cg3.vals.map cleanGenresV),
      cleanGenresV v = v := by
    intro v hv
    rcases List.mem_map.mp (applyMask_mem hv) with ⟨v0, _, rfl⟩
    exact cleanGenresV_image_idem v0
  rw [mapColE_self hgu rfl hgfix]
  simp only [Except.bind]
  -- the ids of `u` are already unique
  have hcu : getColE u "id" =
      Except.ok { cid with vals := applyMask (keepMask [] cid.vals) cid.vals } := by
    rw [← hu, getColE_maskRows, hid]
    rfl
  exact dropDup_self hcu (applyMask_keepMask_sel cid.vals []).1

/-- C2: for every input table with the expected columns present (success of
the cleaner), applying a cleaner twice yields the same table as applying it
once: each of `clean_artists`, `clean_tracks` and `clean_features` is
idempotent. -/
theorem cleaners_idempotent :
    (∀ t u : DF, clean_artists t = Except.ok u → clean_artists u = Except.ok u) ∧
    (∀ t u : DF, clean_tracks t = Except.ok u → clean_tracks u = Except.ok u) ∧
    (∀ t u : DF, clean_features t = Except.ok u → clean_features u = Except.ok u) :=
  ⟨fun _ _ h => clean_artists_idem h, fun _ _ h => clean_tracks_idem h,
    fun _ _ h => clean_features_idem h⟩

/-- Witness for C2: the idempotence theorem applied to three concrete raw
tables. -/
theorem cleaners_idempotent_witness :
    clean_artists artistsW = Except.ok artistsWC ∧
    clean_artists artistsWC = Except.ok artistsWC ∧
    clean_tracks tracksW = Except.ok tracksWC ∧
    clean_tracks tracksWC = Except.ok tracksWC ∧
    clean_features featuresW = Except.ok featuresWC ∧
    clean_features featuresWC = Except.ok featuresWC :=
  ⟨by rfl, cleaners_idempotent.1 artistsW artistsWC (by rfl),
    by rfl, cleaners_idempotent.2.1 tracksW tracksWC (by rfl),
    by rfl, cleaners_idempotent.2.2 featuresW featuresWC (by rfl)⟩

/-! ## Column labels are preserved by the analyzers -/

theorem hasCol_cons {c : Col} {cs : List Col} {k : String} :
    hasCol ⟨c :: cs⟩ k = (c.name == k || hasCol ⟨cs⟩ k) := by
  unfold hasCol
  rw [List.any_cons]

theorem setColAux_names {k : String} {dt : Dtype} {vs : List Value} :
    ∀ {cols : List Col}, cols.any (fun c => c.name == k) = true →
      (setColAux k dt vs cols).map Col.name = cols.map Col.name := by
  intro cols h
  induction cols with
  | nil => simp at h
  | cons c0 cs ih =>
    rw [setColAux]
    by_cases h0 : c0.name == k
    · rw [if_pos h0, List.map_cons, List.map_cons]
      rw [show (⟨k, dt, vs⟩ : Col).name = k from rfl, eq_of_beq h0]
    · rw [if_neg h0, List.map_cons, List.map_cons]
      rw [List.any_cons] at h
      have h2 : cs.any (fun c => c.name == k) = true := by
        rcases Bool.or_eq_true _ _ |>.mp h with h3 | h3
        · exact absurd h3 h0
        · exact h3
      rw [ih h2]

theorem colNames_setCol_present {df : DF} {k : String} (h : hasCol df k = true)
    (dt : Dtype) (vs : List Value) : colNames (setCol df k dt vs) = colNames df := by
  unfold hasCol at h
  exact setColAux_names h

theorem colNames_mapCols (f : Col → Col) (hf : ∀ c, (f c).name = c.name)
    (cols : List Col) : colNames ⟨cols.map f⟩ = colNames ⟨cols⟩ := by
  unfold colNames
  rw [List.map_map]
  apply List.map_congr_left
  intro c _
  exact hf c

theorem colNames_maskRows (df : DF) (m : List Bool) :
    colNames (maskRows df m) = colNames df :=
  colNames_mapCols (fun c => { c with vals := applyMask m c.vals }) (fun _ => rfl) df.cols

theorem colNames_selectIdxs (df : DF) (idxs : List Nat) :
    colNames (selectIdxs df idxs) = colNames df :=
  colNames_mapCols (fun c => { c with vals := idxs.map (fun i => c.vals.getD i Value.null) })
    (fun _ => rfl) df.cols

theorem colNames_headDF (df : DF) (n : Nat) :
    colNames (headDF df n) = colNames df :=
  colNames_mapCols (fun c => { c with vals := c.vals.take n }) (fun _ => rfl) df.cols

theorem hasCol_of_getColE_ok {df : DF} {k : String} {c : Col}
    (h : getColE df k = Except.ok c) : hasCol df k = true := by
  unfold getColE at h
  rcases hf : df.cols.find? (fun c0 => c0.name == k) with _ | c1
  · rw [hf] at h
    cases h
  · unfold hasCol
    rw [List.any_eq_true]
    exact ⟨c1, List.mem_of_find?_eq_some hf, by
      have := List.find?_some hf
      exact this⟩

theorem colNames_get_top_popular_tracks (t : DF) (th : Option Int) (n : Nat) :
    colNames (get_top_popular_tracks t th n) = colNames t := by
  unfold get_top_popular_tracks
  by_cases h : hasCol t "popularity" = false
  · rw [if_pos h]
    exact colNames_headDF t 0
  · rw [if_neg h]
    rcases hg : getColE t "popularity" with e | c
    · exact colNames_headDF t 0
    · have hp := hasCol_of_getColE_ok hg
      rcases th with _ | thv
      · rw [colNames_headDF, show sortValsDesc = fun df keys =>
          selectIdxs df (argsortDesc keys) from rfl]
        rw [colNames_selectIdxs, colNames_setCol_present hp]
      · rw [colNames_headDF, show sortValsDesc = fun df keys =>
          selectIdxs df (argsortDesc keys) from rfl]
        rw [colNames_selectIdxs, colNames_maskRows, colNames_setCol_present hp]

theorem colNames_top_artists_by_followers (t : DF) (n : Nat) :
    colNames (top_artists_by_followers t n) = colNames t := by
  unfold top_artists_by_followers
  by_cases h : hasCol t "followers" = false
  · rw [if_pos h]
    exact colNames_headDF t 0
  · rw [if_neg h]
    rcases hg : getColE t "followers" with e | c
    · exact colNames_headDF t 0
    · have hp := hasCol_of_getColE_ok hg
      rw [colNames_headDF, show sortValsDesc = fun df keys =>
        selectIdxs df (argsortDesc keys) from rfl]
      rw [colNames_selectIdxs, colNames_setCol_present hp]

/-- C1 (amended): each analyzer degrades to an empty result of the input's
column shape when the column it guards on is absent (`popularity`,
`followers`, `genres`, `release_date` respectively); `headDF t 0` keeps
every column label and empties every column, and the two ranking analyzers
always preserve the input's column-label list, so the empty result has the
column set of a non-empty call.  (The blanket never-raises reading fails:
see the counterexample where `popularity_trend` raises a `KeyError` when
`release_date` is present but `popularity` is missing.) -/
theorem analyzer_missing_column_degradation :
    (∀ (t : DF) (th : Option Int) (n : Nat), hasCol t "popularity" = false →
      get_top_popular_tracks t th n = headDF t 0) ∧
    (∀ (t : DF) (n : Nat), hasCol t "followers" = false →
      top_artists_by_followers t n = headDF t 0) ∧
    (∀ t : DF, hasCol t "genres" = false → genre_distribution t = []) ∧
    (∀ (t : DF) (f : String), hasCol t "release_date" = false →
      popularity_trend t f = Except.ok []) ∧
    (∀ t : DF, colNames (headDF t 0) = colNames t ∧
      ∀ c ∈ (headDF t 0).cols, c.vals = []) ∧
    (∀ (t : DF) (th : Option Int) (n : Nat),
      colNames (get_top_popular_tracks t th n) = colNames t) ∧
    (∀ (t : DF) (n : Nat), colNames (top_artists_by_followers t n) = colNames t) := by
  refine ⟨?_, ?_, ?_, ?_, ?_, ?_, ?_⟩
  · intro t th n h
    unfold get_top_popular_tracks
    rw [if_pos h]
  · intro t n h
    unfold top_artists_by_followers
    rw [if_pos h]
  · intro t h
    unfold genre_distribution
    rw [if_pos h]
  · intro t f h
    unfold popularity_trend
    rw [if_pos h]
  · intro t
    refine ⟨colNames_headDF t 0, ?_⟩
    intro c hc
    rcases List.mem_map.mp hc with ⟨c0, _, rfl⟩
    exact List.take_zero c0.vals
  · exact colNames_get_top_popular_tracks
  · exact colNames_top_artists_by_followers

/-- Witness for C1: the degradation theorem applied to a concrete table
that lacks all four analyzer columns. -/
theorem analyzer_missing_column_degradation_witness :
    get_top_popular_tracks plainT (some 90) 10 = headDF plainT 0 ∧
    top_artists_by_followers plainT 10 = headDF plainT 0 ∧
    genre_distribution plainT = [] ∧
    popularity_trend plainT "YE" = Except.ok [] ∧
    colNames (headDF plainT 0) = colNames plainT :=
  ⟨analyzer_missing_column_degradation.1 plainT (some 90) 10 (by rfl),
    analyzer_missing_column_degradation.2.1 plainT 10 (by rfl),
    analyzer_missing_column_degradation.2.2.1 plainT (by rfl),
    analyzer_missing_column_degradation.2.2.2.1 plainT "YE" (by rfl),
    (analyzer_missing_column_degradation.2.2.2.2.1 plainT).1⟩

/-- Counterexample to C1 as stated ("analyzer functions never raise for
missing input columns"): on a table whose `release_date` column is present
but whose `popularity` column is absent, `popularity_trend` raises a
`KeyError` instead of returning an empty result. -/
theorem popularity_trend_missing_popularity_raises :
    popularity_trend noPopTrendT "YE" = Except.error "KeyError: popularity" := by
  rfl

/-! ## Inversion of a successful `clean_artists` run -/

theorem clean_artists_cols {t u : DF} (h : clean_artists t = Except.ok u) :
    ∃ (cg cid : Col) (fints pints : List Int),
      getColE (renameCols t) "genres" = Except.ok cg ∧
      getColE (renameCols t) "id" = Except.ok cid ∧
      u = maskRows
        (setCol (setCol (setCol (setCol (renameCols t)
          "genres" cg.dtype (cg.vals.map (fillnaV (Value.str "Unknown"))))
          "followers" Dtype.number (fints.map Value.int))
          "popularity" Dtype.number (pints.map Value.int))
          "genres" Dtype.object
            ((cg.vals.map (fillnaV (Value.str "Unknown"))).map cleanGenresV))
        (keepMask [] cid.vals) ∧
      getColE u "genres" = Except.ok ⟨"genres", Dtype.object,
        applyMask (keepMask [] cid.vals)
          ((cg.vals.map (fillnaV (Value.str "Unknown"))).map cleanGenresV)⟩ ∧
      getColE u "followers" = Except.ok ⟨"followers", Dtype.number,
        applyMask (keepMask [] cid.vals) (fints.map Value.int)⟩ ∧
      getColE u "popularity" = Except.ok ⟨"popularity", Dtype.number,
        applyMask (keepMask [] cid.vals) (pints.map Value.int)⟩ ∧
      getColE u "name" = (getColE (renameCols t) "name").map
        (fun c => { c with vals := applyMask (keepMask [] cid.vals) c.vals }) ∧
      getColE u "id" = Except.ok
        { cid with vals := applyMask (keepMask [] cid.vals) cid.vals } := by
  unfold clean_artists at h
  rcases hcg : getColE (renameCols t) "genres" with e | cg
  · rw [fillnaCol_eq_err _ hcg] at h
    cases h
  rw [fillnaCol_eq_ok _ hcg] at h
  simp only [Except.bind] at h
  rcases hcf : getColE (setCol (renameCols t) "genres" cg.dtype
      (cg.vals.map (fillnaV (Value.str "Unknown")))) "followers" with e | cf
  · rw [intCoerceCol_eq_err hcf] at h
    cases h
  rcases hmf : (cf.vals.map (fillnaV (Value.int 0))).mapM astypeIntV with e | fints
  · rw [intCoerceCol_eq_err2 hcf hmf] at h
    cases h
  rw [intCoerceCol_eq_ok hcf hmf] at h
  simp only [Except.bind] at h
  rcases hcp : getColE (setCol (setCol (renameCols t) "genres" cg.dtype
      (cg.vals.map (fillnaV (Value.str "Unknown"))))
      "followers" Dtype.number (fints.map Value.int)) "popularity" with e | cp
  · rw [intCoerceCol_eq_err hcp] at h
    cases h
  rcases hmp : (cp.vals.map (fillnaV (Value.int 0))).mapM astypeIntV with e | pints
  · rw [intCoerceCol_eq_err2 hcp hmp] at h
    cases h
  rw [intCoerceCol_eq_ok hcp hmp] at h
  simp only [Except.bind] at h
  rcases hcg3 : getColE (setCol (setCol (setCol (renameCols t) "genres" cg.dtype
      (cg.vals.map (fillnaV (Value.str "Unknown"))))
      "followers" Dtype.number (fints.map Value.int))
      "popularity" Dtype.number (pints.map Value.int)) "genres" with e | cg3
  · rw [mapColE_eq_err _ _ hcg3] at h
    cases h
  rw [mapColE_eq_ok _ _ hcg3] at h
  simp only [Except.bind] at h
  have hcg3v : cg3 = ⟨"genres", cg.dtype, cg.vals.map (fillnaV (Value.str "Unknown"))⟩ := by
    rw [getColE_setCol_other (by decide), getColE_setCol_other (by decide),
      getColE_setCol_same] at hcg3
    cases hcg3
    rfl
  subst hcg3v
  rcases hid : getColE (setCol (setCol (setCol (setCol (renameCols t) "genres" cg.dtype
      (cg.vals.map (fillnaV (Value.str "Unknown"))))
      "followers" Dtype.number (fints.map Value.int))
      "popularity" Dtype.number (pints.map Value.int))
      "genres" Dtype.object
        ((cg.vals.map (fillnaV (Value.str "Unknown"))).map cleanGenresV)) "id"
      with e | cid
  · rw [dropDup_eq_err hid] at h
    cases h
  rw [dropDup_eq_ok hid] at h
  have hidr : getColE (renameCols t) "id" = Except.ok cid := by
    rw [getColE_setCol_other (by decide), getColE_setCol_other (by decide),
      getColE_setCol_other (by decide), getColE_setCol_other (by decide)] at hid
    exact hid
  have hu : maskRows (setCol (setCol (setCol (setCol (renameCols t) "genres" cg.dtype
      (cg.vals.map (fillnaV (Value.str "Unknown"))))
      "followers" Dtype.number (fints.map Value.int))
      "popularity" Dtype.number (pints.map Value.int))
      "genres" Dtype.object
        ((cg.vals.map (fillnaV (Value.str "Unknown"))).map cleanGenresV))
      (keepMask [] cid.vals) = u := by
    cases h
    rfl
  refine ⟨cg, cid, fints, pints, rfl, hidr, hu.symm, ?_, ?_, ?_, ?_, ?_⟩
  · rw [← hu, getColE_maskRows, getColE_setCol_same]
    rfl
  · rw [← hu, getColE_maskRows, getColE_setCol_other (by decide),
      getColE_setCol_other (by decide), getColE_setCol_same]
    rfl
  · rw [← hu, getColE_maskRows, getColE_setCol_other (by decide),
      getColE_setCol_same]
    rfl
  · rw [← hu, getColE_maskRows, getColE_setCol_other (by decide),
      getColE_setCol_other (by decide), getColE_setCol_other (by decide),
      getColE_setCol_other (by decide)]
  · rw [← hu, getColE_maskRows, hid]
    rfl

/-! ## C5: what happens to `name` and who gets "Unknown" -/

/-- C5 (amended): `clean_artists` leaves the `name` column untouched —
missing names included; on a table with unique ids the cleaned `name`
column is exactly the input's (it is the `genres` column whose missing
values receive `"Unknown"`). -/
theorem clean_artists_name_unchanged :
    ∀ (t u : DF) (cid : Col), clean_artists t = Except.ok u →
      getColE (renameCols t) "id" = Except.ok cid → cid.vals.Nodup →
      getColE u "name" = getColE (renameCols t) "name" := by
  intro t u cid h hid hnd
  obtain ⟨cg, cid', fints, pints, _, hid', _, _, _, _, hname, _⟩ := clean_artists_cols h
  have hsame : cid' = cid := by
    rw [hid] at hid'
    cases hid'
    rfl
  subst hsame
  rw [hname, keepMask_all_true hnd [] (by intro x _ hx; cases hx)]
  rcases hn : getColE (renameCols t) "name" with e | cn
  · rfl
  · simp only [Except.map]
    rw [applyMask_replicate_true]

/-- Witness for C5's amended statement at a concrete table. -/
theorem clean_artists_name_unchanged_witness :
    getColE artistsNameTC "name" = getColE (renameCols artistsNameT) "name" :=
  clean_artists_name_unchanged artistsNameT artistsNameTC
    ⟨"id", Dtype.object, [Value.str "a1"]⟩ (by rfl) (by rfl) (by decide)

/-- Counterexample to C5 as stated: cleaning a table with a missing `name`
leaves the missing value in place instead of filling `"Unknown"`. -/
theorem clean_artists_name_not_filled :
    clean_artists artistsNameT = Except.ok artistsNameTC ∧
    getColE artistsNameTC "name" = Except.ok ⟨"name", Dtype.object, [Value.null]⟩ ∧
    artistsNameTC ≠ artistsNameTClaim :=
  ⟨by rfl, by rfl, by decide⟩

/-! ## C6 / C4: integer coercion and missing-value fill -/

theorem clean_artists_int_cols {t u : DF} (h : clean_artists t = Except.ok u) :
    (∀ c : Col, getColE u "followers" = Except.ok c →
      ∀ v ∈ c.vals, ∃ n : Int, v = Value.int n) ∧
    (∀ c : Col, getColE u "popularity" = Except.ok c →
      ∀ v ∈ c.vals, ∃ n : Int, v = Value.int n) := by
  obtain ⟨cg, cid, fints, pints, _, _, _, _, hf, hp, _, _⟩ := clean_artists_cols h
  constructor
  · intro c hc
    rw [hf] at hc
    cases hc
    intro v hv
    rcases List.mem_map.mp (applyMask_mem hv) with ⟨n, _, rfl⟩
    exact ⟨n, rfl⟩
  · intro c hc
    rw [hp] at hc
    cases hc
    intro v hv
    rcases List.mem_map.mp (applyMask_mem hv) with ⟨n, _, rfl⟩
    exact ⟨n, rfl⟩

/-- C6 (amended): `clean_artists` coerces `followers` and `popularity` to
integers: a missing value becomes `0` via `fillna(0)`, and every cell of
the cleaned columns is an integer.  (As stated the claim fails: the
coercion is `astype(int)`, which raises on a non-numeric string instead of
producing 0, and a negative value passes through unchanged — see the
counterexample.) -/
theorem clean_artists_followers_coercion :
    fillnaV (Value.int 0) Value.null = Value.int 0 ∧
    (∀ (t u : DF) (c : Col), clean_artists t = Except.ok u →
      getColE u "followers" = Except.ok c → ∀ v ∈ c.vals, ∃ n : Int, v = Value.int n) ∧
    (∀ (t u : DF) (c : Col), clean_artists t = Except.ok u →
      getColE u "popularity" = Except.ok c → ∀ v ∈ c.vals, ∃ n : Int, v = Value.int n) :=
  ⟨rfl, fun _ _ c h hc => (clean_artists_int_cols h).1 c hc,
    fun _ _ c h hc => (clean_artists_int_cols h).2 c hc⟩

/-- Witness for C6's amended statement: the cleaned followers column of a
concrete table consists of integers. -/
theorem clean_artists_followers_coercion_witness :
    ∀ v ∈ [Value.int 0], ∃ n : Int, v = Value.int n :=
  clean_artists_followers_coercion.2.1 artistsW artistsWC
    ⟨"followers", Dtype.number, [Value.int 0]⟩ (by rfl) (by rfl)

/-- Counterexample to C6 as stated: a non-numeric followers value makes
`clean_artists` raise a `ValueError` (instead of becoming 0), and a
negative followers value survives cleaning (the output is not
non-negative). -/
theorem clean_artists_coercion_counterexample :
    clean_artists artistsBadT =
      Except.error "ValueError: invalid literal for int: abc" ∧
    clean_artists artistsNegT = Except.ok artistsNegTC ∧
    getColE artistsNegTC "followers" =
      Except.ok ⟨"followers", Dtype.number, [Value.int (-5)]⟩ :=
  ⟨by rfl, by rfl, by rfl⟩

theorem fillColMedian_dtype (c : Col) : (fillColMedian c).dtype = c.dtype := by
  unfold fillColMedian
  split <;> rfl

theorem coherent_member {df : DF} (hco : coherent df = true) {c : Col}
    (hc : c ∈ df.cols) (hdt : c.dtype = Dtype.number) : c.vals.all numOkV = true := by
  unfold coherent at hco
  have h1 := List.all_eq_true.mp hco c hc
  rw [hdt] at h1
  simpa using h1

theorem coherent_renameCols {t : DF} (h : coherent t = true) :
    coherent (renameCols t) = true := by
  unfold coherent at h ⊢
  rw [List.all_eq_true] at h ⊢
  intro c hc
  rcases List.mem_map.mp hc with ⟨c0, hc0, rfl⟩
  exact h c0 hc0

theorem coherent_setCol_non_number {df : DF} (h : coherent df = true)
    {k : String} {dt : Dtype} (hdt : dt ≠ Dtype.number) (vs : List Value) :
    coherent (setCol df k dt vs) = true := by
  unfold coherent at h ⊢
  rw [List.all_eq_true] at h ⊢
  intro c hc
  rcases mem_setColAux hc with rfl | hc2
  · simp [hdt]
  · exact h c hc2

theorem masked_fill_no_missing {df : DF} (hco : coherent df = true) (m : List Bool) :
    ∀ c ∈ (maskRows (fillNumericMedians df) m).cols, c.dtype = Dtype.number →
      (∀ v ∈ c.vals, v ≠ Value.null) ∨ (∀ v ∈ c.vals, v = Value.null) := by
  intro c hc hdt
  rcases List.mem_map.mp hc with ⟨c1, hc1, rfl⟩
  rcases List.mem_map.mp hc1 with ⟨c0, hc0, rfl⟩
  have hdt0 : c0.dtype = Dtype.number := by
    rw [← fillColMedian_dtype c0]
    exact hdt
  rcases fill_median_vals_cases c0.vals with hleft | ⟨hnil, heq⟩
  · left
    intro v hv
    apply hleft
    have hfv : (fillColMedian c0).vals = c0.vals.map (fillnaV (medianV c0.vals)) := by
      unfold fillColMedian
      rw [if_pos hdt0]
    rw [hfv] at hv
    exact applyMask_mem hv
  · right
    intro v hv
    have hfv : (fillColMedian c0).vals = c0.vals := by
      unfold fillColMedian
      rw [if_pos hdt0]
      exact heq
    rw [hfv] at hv
    have hv0 : v ∈ c0.vals := applyMask_mem hv
    have hok : numOkV v = true :=
      List.all_eq_true.mp (coherent_member hco hc0 hdt0) v hv0
    have hnone : ratOfV v = none := by
      rw [List.filterMap_eq_nil] at hnil
      exact hnil v hv0
    cases v with
    | null => rfl
    | int n => simp [ratOfV] at hnone
    | float q => simp [ratOfV] at hnone
    | str s => simp [numOkV] at hok
    | vlist l => simp [numOkV] at hok
    | date d => simp [numOkV] at hok

theorem clean_tracks_shape {t u : DF} (h : clean_tracks t = Except.ok u) :
    ∃ (crd cid : Col),
      getColE (renameCols t) "release_date" = Except.ok crd ∧
      u = maskRows (fillNumericMedians (setCol (renameCols t) "release_date"
        Dtype.datetime (crd.vals.map toDatetimeV))) (keepMask [] cid.vals) := by
  unfold clean_tracks at h
  rcases hrd : getColE (renameCols t) "release_date" with e | crd
  · rw [mapColE_eq_err _ _ hrd] at h
    cases h
  rw [mapColE_eq_ok _ _ hrd] at h
  simp only [Except.bind] at h
  rcases hid : getColE (fillNumericMedians (setCol (renameCols t) "release_date"
      Dtype.datetime (crd.vals.map toDatetimeV))) "id" with e | cid
  · rw [dropDup_eq_err hid] at h
    cases h
  rw [dropDup_eq_ok hid] at h
  refine ⟨crd, cid, rfl, ?_⟩
  cases h
  rfl

/-- C4 (amended): after cleaning, the artists' `followers` and
`popularity` columns contain no missing values (missing coerced via
`fillna(0)`); and for any dtype-coherent input table, every number-dtype
column of a cleaned track or feature table either contains no missing
values (they were filled with the column median) or consists entirely of
missing values — an all-missing column has a `NaN` median and stays
missing, which is why the claim as stated fails (see counterexample). -/
theorem cleaned_no_missing_numeric :
    (∀ (t u : DF) (c : Col), clean_artists t = Except.ok u →
      getColE u "followers" = Except.ok c → ∀ v ∈ c.vals, v ≠ Value.null) ∧
    (∀ (t u : DF) (c : Col), clean_artists t = Except.ok u →
      getColE u "popularity" = Except.ok c → ∀ v ∈ c.vals, v ≠ Value.null) ∧
    (∀ t u : DF, coherent t = true → clean_tracks t = Except.ok u →
      ∀ c ∈ u.cols, c.dtype = Dtype.number →
        (∀ v ∈ c.vals, v ≠ Value.null) ∨ (∀ v ∈ c.vals, v = Value.null)) ∧
    (∀ t u : DF, coherent t = true → clean_features t = Except.ok u →
      ∀ c ∈ u.cols, c.dtype = Dtype.number →
        (∀ v ∈ c.vals, v ≠ Value.null) ∨ (∀ v ∈ c.vals, v = Value.null)) := by
  refine ⟨?_, ?_, ?_, ?_⟩
  · intro t u c h hc v hv
    obtain ⟨n, rfl⟩ := (clean_artists_int_cols h).1 c hc v hv
    intro hcon
    cases hcon
  · intro t u c h hc v hv
    obtain ⟨n, rfl⟩ := (clean_artists_int_cols h).2 c hc v hv
    intro hcon
    cases hcon
  · intro t u hco h
    obtain ⟨crd, cid, hrd, rfl⟩ := clean_tracks_shape h
    exact masked_fill_no_missing
      (coherent_setCol_non_number (coherent_renameCols hco) (by decide) _) _
  · intro t u hco h
    unfold clean_features at h
    rcases hid : getColE (fillNumericMedians (renameCols t)) "track_id" with e | cid
    · rw [dropDup_eq_err hid] at h
      cases h
    rw [dropDup_eq_ok hid] at h
    have hu : maskRows (fillNumericMedians (renameCols t)) (keepMask [] cid.vals) = u := by
      cases h
      rfl
    rw [← hu]
    exact masked_fill_no_missing (coherent_renameCols hco) _

/-- Witness for C4's amended statement: concrete applications to cleaned
artist and track tables. -/
theorem cleaned_no_missing_numeric_witness :
    (∀ v ∈ [Value.int 0], v ≠ Value.null) ∧
    ((∀ v ∈ [Value.int 4, Value.float ((4 : Int) : Rat)], v ≠ Value.null) ∨
      (∀ v ∈ [Value.int 4, Value.float ((4 : Int) : Rat)], v = Value.null)) :=
  ⟨cleaned_no_missing_numeric.1 artistsW artistsWC
      ⟨"followers", Dtype.number, [Value.int 0]⟩ (by rfl) (by rfl),
    cleaned_no_missing_numeric.2.2.1 tracksW tracksWC (by decide) (by rfl)
      ⟨"popularity", Dtype.number, [Value.int 4, Value.float ((4 : Int) : Rat)]⟩
      (by decide) (by rfl)⟩

/-- Counterexample to C4 as stated: a numeric column that is entirely
missing still contains a missing value after `clean_features` (its median
is `NaN`, so nothing is filled). -/
theorem clean_features_all_null_column_stays :
    clean_features featuresNullT = Except.ok featuresNullTC ∧
    getColE featuresNullTC "x" = Except.ok ⟨"x", Dtype.number, [Value.null]⟩ :=
  ⟨by rfl, by rfl⟩

/-! ## Stable sort and `value_counts` lemmas -/

theorem insertLE_perm {α : Type} (key : α → Int) (a : α) (l : List α) :
    (insertLE key a l).Perm (a :: l) := by
  induction l with
  | nil => exact List.Perm.refl _
  | cons b t ih =>
    unfold insertLE
    by_cases h : key a ≤ key b
    · rw [if_pos h]
    · rw [if_neg h]
      exact (List.Perm.cons b ih).trans (List.Perm.swap a b t)

theorem sortLE_perm {α : Type} (key : α → Int) (l : List α) :
    (sortLE key l).Perm l := by
  induction l with
  | nil => exact List.Perm.refl _
  | cons a t ih =>
    unfold sortLE
    exact (insertLE_perm key a (sortLE key t)).trans (List.Perm.cons a ih)

theorem pairwise_insertLE {α : Type} (key : α → Int) (a : α) {l : List α}
    (h : l.Pairwise (fun x y => key x ≤ key y)) :
    (insertLE key a l).Pairwise (fun x y => key x ≤ key y) := by
  induction l with
  | nil => exact List.pairwise_singleton _ a
  | cons b t ih =>
    unfold insertLE
    rcases List.pairwise_cons.mp h with ⟨hb, ht⟩
    by_cases hab : key a ≤ key b
    · rw [if_pos hab]
      refine List.pairwise_cons.mpr ⟨?_, h⟩
      intro x hx
      rcases List.mem_cons.mp hx with rfl | hx2
      · exact hab
      · exact le_trans hab (hb x hx2)
    · rw [if_neg hab]
      refine List.pairwise_cons.mpr ⟨?_, ih ht⟩
      intro x hx
      have hx3 := (insertLE_perm key a t).mem_iff.mp hx
      rcases List.mem_cons.mp hx3 with rfl | hx2
      · exact le_of_not_le hab
      · exact hb x hx2

theorem pairwise_sortLE {α : Type} (key : α → Int) (l : List α) :
    (sortLE key l).Pairwise (fun x y => key x ≤ key y) := by
  induction l with
  | nil => exact List.Pairwise.nil
  | cons a t ih =>
    unfold sortLE
    exact pairwise_insertLE key a ih

theorem mem_firstSeen {x : String} : ∀ {l seen : List String},
    x ∈ firstSeen seen l ↔ x ∈ l ∧ x ∉ seen := by
  intro l
  induction l with
  | nil => intro seen; simp [firstSeen]
  | cons s t ih =>
    intro seen
    unfold firstSeen
    by_cases hs : s ∈ seen
    · rw [if_pos hs, ih]
      constructor
      · rintro ⟨h1, h2⟩
        exact ⟨List.mem_cons_of_mem _ h1, h2⟩
      · rintro ⟨h1, h2⟩
        rcases List.mem_cons.mp h1 with rfl | h3
        · exact absurd hs h2
        · exact ⟨h3, h2⟩
    · rw [if_neg hs]
      constructor
      · intro h1
        rcases List.mem_cons.mp h1 with rfl | h3
        · exact ⟨List.mem_cons_self _ _, hs⟩
        · rcases ih.mp h3 with ⟨h4, h5⟩
          refine ⟨List.mem_cons_of_mem _ h4, fun h6 => h5 (List.mem_cons_of_mem _ h6)⟩
      · rintro ⟨h1, h2⟩
        rcases List.mem_cons.mp h1 with rfl | h3
        · exact List.mem_cons_self _ _
        · by_cases hx : x = s
          · subst hx
            exact List.mem_cons_self _ _
          · refine List.mem_cons_of_mem _ (ih.mpr ⟨h3, ?_⟩)
            intro h4
            rcases List.mem_cons.mp h4 with h5 | h5
            · exact hx h5
            · exact h2 h5

theorem firstSeen_nodup : ∀ (l seen : List String), (firstSeen seen l).Nodup := by
  intro l
  induction l with
  | nil => intro seen; exact List.nodup_nil
  | cons s t ih =>
    intro seen
    unfold firstSeen
    by_cases hs : s ∈ seen
    · rw [if_pos hs]
      exact ih seen
    · rw [if_neg hs]
      refine List.nodup_cons.mpr ⟨?_, ih (s :: seen)⟩
      intro hmem
      exact (mem_firstSeen.mp hmem).2 (List.mem_cons_self s seen)

theorem lookupCount_of_mem {l : List (String × Nat)}
    (hnd : (l.map Prod.fst).Nodup) {k : String} {v : Nat} (hm : (k, v) ∈ l) :
    lookupCount l k = v := by
  induction l with
  | nil => cases hm
  | cons p t ih =>
    rcases List.mem_cons.mp hm with rfl | hm2
    · unfold lookupCount
      rw [List.find?]
      simp
    · have hnd2 : p.1 ∉ t.map Prod.fst ∧ (t.map Prod.fst).Nodup := by
        rw [List.map_cons] at hnd
        exact List.nodup_cons.mp hnd
      obtain ⟨hp, ht⟩ := hnd2
      have hpk : (p.1 == k) = false := by
        rw [beq_eq_false_iff_ne]
        intro he
        exact hp (he ▸ List.mem_map_of_mem Prod.fst hm2)
      unfold lookupCount
      rw [List.find?]
      simp only [hpk]
      exact ih ht hm2

theorem lookupCount_of_not_mem {l : List (String × Nat)} {k : String}
    (h : k ∉ l.map Prod.fst) : lookupCount l k = 0 := by
  unfold lookupCount
  rw [List.find?_eq_none.mpr]
  intro p hp hbeq
  exact h (eq_of_beq hbeq ▸ List.mem_map_of_mem Prod.fst hp)

theorem valueCounts_perm_tally (xs : List String) :
    (valueCounts xs).Perm ((firstSeen [] xs).map (fun k => (k, xs.count k))) := by
  unfold valueCounts
  exact (List.reverse_perm _).trans ((sortLE_perm _ _).trans (List.reverse_perm _))

theorem valueCounts_keys_nodup (xs : List String) :
    ((valueCounts xs).map Prod.fst).Nodup := by
  have hperm := (valueCounts_perm_tally xs).map Prod.fst
  apply hperm.nodup_iff.mpr
  rw [List.map_map]
  have : (Prod.fst ∘ fun k => (k, xs.count k)) = id := rfl
  rw [this, List.map_id]
  exact firstSeen_nodup xs []

theorem lookupCount_valueCounts (xs : List String) (k : String) :
    lookupCount (valueCounts xs) k = xs.count k := by
  by_cases hk : k ∈ xs
  · apply lookupCount_of_mem (valueCounts_keys_nodup xs)
    apply (valueCounts_perm_tally xs).mem_iff.mpr
    have hks : k ∈ firstSeen [] xs := mem_firstSeen.mpr ⟨hk, by intro h; cases h⟩
    exact List.mem_map_of_mem _ hks
  · rw [lookupCount_of_not_mem, List.count_eq_zero_of_not_mem hk]
    intro hmem
    have hperm := (valueCounts_perm_tally xs).map Prod.fst
    have := hperm.mem_iff.mp hmem
    rw [List.map_map] at this
    have hid : (Prod.fst ∘ fun k => (k, xs.count k)) = id := rfl
    rw [hid, List.map_id] at this
    exact hk (mem_firstSeen.mp this).1

theorem valueCounts_sorted_desc (xs : List String) :
    (valueCounts xs).Pairwise (fun a b => b.2 ≤ a.2) := by
  unfold valueCounts
  rw [List.pairwise_reverse]
  have h0 := pairwise_sortLE (fun p : String × Nat => (p.2 : Int))
    ((firstSeen [] xs).map (fun k => (k, xs.count k))).reverse
  exact List.Pairwise.imp (fun h => by exact_mod_cast h) h0

/-! ## C10: missing genres end up counted as "unknown" -/

theorem count_unknown_tokens_ge (l : List Value) :
    l.count (Value.str "unknown") ≤
      ((l.filter (fun v => v ≠ Value.null)).map tokensOf).flatten.count "unknown" := by
  induction l with
  | nil => exact Nat.le_refl 0
  | cons v t ih =>
    by_cases hv : v = Value.null
    · subst hv
      rw [List.filter_cons_of_neg (by simp), List.count_cons_of_ne (by simp)]
      exact ih
    · rw [List.filter_cons_of_pos (by simpa using hv), List.map_cons, List.flatten_cons,
        List.count_append, List.count_cons]
      by_cases hu : v = Value.str "unknown"
      · subst hu
        have htok : List.count "unknown" (tokensOf (Value.str "unknown")) = 1 := by rfl
        rw [htok]
        simp only [beq_self_eq_true, if_pos]
        omega
      · have hne : (v == Value.str "unknown") = false := by
          rw [beq_eq_false_iff_ne]
          exact hu
        simp only [hne, Bool.false_eq_true, if_false]
        omega

theorem count_null_le_count_image {f : Value → Value} {w : Value}
    (hf : f Value.null = w) (l : List Value) :
    l.count Value.null ≤ (l.map f).count w := by
  induction l with
  | nil => exact Nat.le_refl 0
  | cons v t ih =>
    rw [List.map_cons, List.count_cons, List.count_cons]
    by_cases hv : v = Value.null
    · subst hv
      rw [hf]
      simp only [beq_self_eq_true, if_pos]
      omega
    · have hne : (v == Value.null) = false := by
        rw [beq_eq_false_iff_ne]
        exact hv
      simp only [hne, Bool.false_eq_true, if_false]
      split <;> omega

theorem genre_distribution_of_col {df : DF} {c : Col}
    (h : getColE df "genres" = Except.ok c) :
    genre_distribution df =
      valueCounts (((c.vals.filter (fun v => v ≠ Value.null)).map tokensOf).flatten) := by
  unfold genre_distribution
  rw [hasCol_of_getColE_ok h, if_neg (by simp), h]

/-- C10: a missing `genres` cell is filled with `"Unknown"` by
`clean_artists` and lower-cased to `"unknown"`; `genre_distribution`
tokenizes that string to the single token `"unknown"`, so on a cleaned
table with unique ids the count of the `"unknown"` genre is at least the
number of rows whose raw genres cell was missing — such rows are counted,
not excluded. -/
theorem missing_genres_counted_unknown :
    fillnaV (Value.str "Unknown") Value.null = Value.str "Unknown" ∧
    cleanGenresV (Value.str "Unknown") = Value.str "unknown" ∧
    tokensOf (Value.str "unknown") = ["unknown"] ∧
    (∀ (t u : DF) (cg cid : Col), clean_artists t = Except.ok u →
      getColE (renameCols t) "genres" = Except.ok cg →
      getColE (renameCols t) "id" = Except.ok cid → cid.vals.Nodup →
      cg.vals.count Value.null ≤ lookupCount (genre_distribution u) "unknown") := by
  refine ⟨rfl, by rfl, by rfl, ?_⟩
  intro t u cg cid h hcg hcid hnd
  obtain ⟨cg', cid', fints, pints, hcg', hcid', _, hg, _, _, _, _⟩ := clean_artists_cols h
  have hcgs : cg' = cg := by
    rw [hcg] at hcg'
    cases hcg'
    rfl
  subst hcgs
  have hcids : cid' = cid := by
    rw [hcid] at hcid'
    cases hcid'
    rfl
  subst hcids
  rw [keepMask_all_true hnd [] (by intro x _ hx; cases hx),
    applyMask_replicate_true] at hg
  rw [genre_distribution_of_col hg, lookupCount_valueCounts]
  have h1 : cg'.vals.count Value.null ≤
      ((cg'.vals.map (fillnaV (Value.str "Unknown"))).map cleanGenresV).count
        (Value.str "unknown") := by
    rw [List.map_map]
    have hf0 : (cleanGenresV ∘ fillnaV (Value.str "Unknown")) Value.null =
        Value.str "unknown" := rfl
    exact count_null_le_count_image hf0 cg'.vals
  exact le_trans h1 (count_unknown_tokens_ge _)

/-- Witness for C10 at a concrete artist table with one missing genre. -/
theorem missing_genres_counted_unknown_witness :
    ([Value.null, Value.str "rock"] : List Value).count Value.null ≤
      lookupCount (genre_distribution artistsUnkTC) "unknown" :=
  missing_genres_counted_unknown.2.2.2 artistsUnkT artistsUnkTC
    ⟨"genres", Dtype.object, [Value.null, Value.str "rock"]⟩
    ⟨"id", Dtype.object, [Value.str "a1", Value.str "a2"]⟩
    (by rfl) (by rfl) (by rfl) (by decide)

/-! ## C8: genre tokenization and the distribution -/

/-- C8: `genre_distribution` tokenizes each non-missing genres cell by the
precedence "already a list → as is; string parsing as a list literal → the
parsed list; otherwise comma-split with trimmed tokens", and returns
counts sorted descending with a deterministic tie order; on the example
cells `["['pop','rock']", "pop, jazz", ["rock"]]` the counts are pop → 2,
rock → 2, jazz → 1. -/
theorem genre_distribution_tokenizer :
    (∀ l : List String, tokensOf (Value.vlist l) = l) ∧
    (∀ (s : String) (l : List String), parseListLit s = some l →
      tokensOf (Value.str s) = l) ∧
    (∀ s : String, parseListLit s = none →
      tokensOf (Value.str s) = splitCommaTrim s) ∧
    (∀ xs : List String, (valueCounts xs).Pairwise (fun a b => b.2 ≤ a.2)) ∧
    lookupCount (genre_distribution genresExT) "pop" = 2 ∧
    lookupCount (genre_distribution genresExT) "rock" = 2 ∧
    lookupCount (genre_distribution genresExT) "jazz" = 1 ∧
    genre_distribution genresExT = [("pop", 2), ("rock", 2), ("jazz", 1)] := by
  refine ⟨fun l => rfl, ?_, ?_, valueCounts_sorted_desc, by rfl, by rfl, by rfl, by rfl⟩
  · intro s l h
    show (match parseListLit s with
      | some l => l
      | none => splitCommaTrim s) = l
    rw [h]
  · intro s h
    show (match parseListLit s with
      | some l => l
      | none => splitCommaTrim s) = splitCommaTrim s
    rw [h]

/-- Witness for C8: the tokenizer precedence at concrete strings. -/
theorem genre_distribution_tokenizer_witness :
    tokensOf (Value.str "['pop','rock']") = ["pop", "rock"] ∧
    tokensOf (Value.str "pop, jazz") = splitCommaTrim "pop, jazz" :=
  ⟨genre_distribution_tokenizer.2.1 "['pop','rock']" ["pop", "rock"] (by rfl),
    genre_distribution_tokenizer.2.2.1 "pop, jazz" (by rfl)⟩

/-! ## C3: filtering and descending sort of `get_top_popular_tracks` -/

theorem getColE_selectIdxs (df : DF) (idxs : List Nat) (k : String) :
    getColE (selectIdxs df idxs) k = (getColE df k).map
      (fun c => { c with vals := idxs.map (fun i => c.vals.getD i Value.null) }) :=
  getColE_mapCols (fun c => { c with vals := idxs.map (fun i => c.vals.getD i Value.null) })
    (fun _ => rfl) df.cols k

theorem getColE_headDF (df : DF) (n : Nat) (k : String) :
    getColE (headDF df n) k =
      (getColE df k).map (fun c => { c with vals := c.vals.take n }) :=
  getColE_mapCols (fun c => { c with vals := c.vals.take n }) (fun _ => rfl) df.cols k

theorem getD_map_intKeyV (pvals : List Value) (i : Nat) :
    (pvals.map intKeyV).getD i 0 = intKeyV (pvals.getD i Value.null) := by
  unfold List.getD
  rw [List.get?_map]
  cases h : pvals.get? i with
  | none => rfl
  | some v => rfl

theorem mem_applyMask_map_pred {p : Value → Bool} {x : Value} :
    ∀ {l : List Value}, x ∈ applyMask (l.map p) l → p x = true := by
  intro l h
  induction l with
  | nil => cases h
  | cons v t ih =>
    rw [List.map_cons] at h
    by_cases hv : p v
    · rw [hv] at h
      rw [show applyMask (true :: t.map p) (v :: t) = v :: applyMask (t.map p) t
        from rfl] at h
      rcases List.mem_cons.mp h with rfl | h2
      · exact hv
      · exact ih h2
    · rw [Bool.of_not_eq_true hv] at h
      rw [show applyMask (false :: t.map p) (v :: t) = applyMask (t.map p) t
        from rfl] at h
      exact ih h

theorem mem_argsortAsc_lt {keys : List Int} {i : Nat} (h : i ∈ argsortAsc keys) :
    i < keys.length := by
  unfold argsortAsc at h
  have := (sortLE_perm (fun i => keys.getD i 0) (List.range keys.length)).mem_iff.mp h
  exact List.mem_range.mp this

theorem mem_argsortDesc_lt {keys : List Int} {i : Nat} (h : i ∈ argsortDesc keys) :
    i < keys.length := by
  unfold argsortDesc at h
  rw [List.mem_reverse] at h
  rcases List.mem_map.mp h with ⟨p, hp, rfl⟩
  have hplt := mem_argsortAsc_lt hp
  rw [List.length_reverse] at hplt
  omega

theorem insertLE_pairwise_stable (key : Nat → Int) (a : Nat) :
    ∀ {l : List Nat},
      l.Pairwise (fun i j => key i < key j ∨ (key i = key j ∧ i < j)) →
      (∀ b ∈ l, a < b) →
      (insertLE key a l).Pairwise
        (fun i j => key i < key j ∨ (key i = key j ∧ i < j)) := by
  intro l
  induction l with
  | nil =>
    intro _ _
    exact List.pairwise_singleton _ a
  | cons b t ih =>
    intro hl ha
    rcases List.pairwise_cons.mp hl with ⟨hb, ht⟩
    unfold insertLE
    by_cases hab : key a ≤ key b
    · rw [if_pos hab]
      refine List.pairwise_cons.mpr ⟨?_, hl⟩
      intro x hx
      rcases List.mem_cons.mp hx with rfl | hx2
      · rcases lt_or_eq_of_le hab with hlt | heq
        · exact Or.inl hlt
        · exact Or.inr ⟨heq, ha x (List.mem_cons_self x t)⟩
      · have hbx : key b ≤ key x := by
          rcases hb x hx2 with h1 | ⟨h1, _⟩
          · exact le_of_lt h1
          · exact le_of_eq h1
        rcases lt_or_eq_of_le (le_trans hab hbx) with hlt | heq
        · exact Or.inl hlt
        · exact Or.inr ⟨heq, ha x (List.mem_cons_of_mem b hx2)⟩
    · rw [if_neg hab]
      refine List.pairwise_cons.mpr
        ⟨?_, ih ht (fun x hx => ha x (List.mem_cons_of_mem b hx))⟩
      intro x hx
      have hx3 := (insertLE_perm key a t).mem_iff.mp hx
      rcases List.mem_cons.mp hx3 with rfl | hx2
      · exact Or.inl (lt_of_not_le hab)
      · exact hb x hx2

theorem sortLE_pairwise_stable (key : Nat → Int) :
    ∀ {l : List Nat}, l.Pairwise (fun i j => i < j) →
      (sortLE key l).Pairwise
        (fun i j => key i < key j ∨ (key i = key j ∧ i < j)) := by
  intro l
  induction l with
  | nil =>
    intro _
    exact List.Pairwise.nil
  | cons a t ih =>
    intro hl
    rcases List.pairwise_cons.mp hl with ⟨ha, ht⟩
    unfold sortLE
    refine insertLE_pairwise_stable key a (ih ht) ?_
    intro b hb
    exact ha b ((sortLE_perm key t).mem_iff.mp hb)

theorem argsortAsc_pairwise_ascStable (keys : List Int) :
    (argsortAsc keys).Pairwise (ascStable keys) := by
  unfold argsortAsc ascStable
  exact sortLE_pairwise_stable (fun i => keys.getD i 0) (List.pairwise_lt_range _)

theorem getD_reverse_int (keys : List Int) (i : Nat) (h : i < keys.length) :
    keys.reverse.getD i 0 = keys.getD (keys.length - 1 - i) 0 := by
  unfold List.getD
  rw [List.get?_reverse h]

theorem argsortDesc_pairwise_descStable (keys : List Int) :
    (argsortDesc keys).Pairwise (descStable keys) := by
  unfold argsortDesc
  rw [List.pairwise_reverse]
  have h0 := argsortAsc_pairwise_ascStable keys.reverse
  have h1 : (argsortAsc keys.reverse).Pairwise (fun i j =>
      i < keys.length ∧ j < keys.length ∧ ascStable keys.reverse i j) := by
    refine List.Pairwise.imp_of_mem ?_ h0
    intro i j hi hj hij
    have hi2 := mem_argsortAsc_lt hi
    have hj2 := mem_argsortAsc_lt hj
    rw [List.length_reverse] at hi2
    rw [List.length_reverse] at hj2
    exact ⟨hi2, hj2, hij⟩
  refine List.Pairwise.map (fun i => keys.length - 1 - i) ?_ h1
  intro i j hij
  obtain ⟨hi, hj, hs⟩ := hij
  show descStable keys (keys.length - 1 - j) (keys.length - 1 - i)
  unfold ascStable at hs
  unfold descStable
  rcases hs with hlt | ⟨heq, hij2⟩
  · left
    rw [getD_reverse_int keys i hi, getD_reverse_int keys j hj] at hlt
    exact hlt
  · right
    rw [getD_reverse_int keys i hi, getD_reverse_int keys j hj] at heq
    exact ⟨heq.symm, by omega⟩

theorem get_top_result_col {t : DF} {c0 : Col} (th : Option Int) (n : Nat)
    (hg : getColE t "popularity" = Except.ok c0) :
    ∃ pvals : List Value,
      (th = none → pvals = c0.vals.map numFill0) ∧
      (∀ thv : Int, th = some thv → pvals =
        applyMask ((c0.vals.map numFill0).map (fun v => decide (intKeyV v > thv)))
          (c0.vals.map numFill0)) ∧
      getColE (get_top_popular_tracks t th n) "popularity" =
        Except.ok ⟨"popularity", Dtype.number,
          ((argsortDesc (pvals.map intKeyV)).map
            (fun i => pvals.getD i Value.null)).take n⟩ := by
  unfold get_top_popular_tracks
  rw [hasCol_of_getColE_ok hg, if_neg (by simp), hg]
  cases th with
  | none =>
    refine ⟨c0.vals.map numFill0, fun _ => rfl, ?_, ?_⟩
    · intro thv hcon
      cases hcon
    · show getColE (headDF (sortValsDesc
        (setCol t "popularity" Dtype.number (c0.vals.map numFill0))
        (match getColE (setCol t "popularity" Dtype.number (c0.vals.map numFill0))
            "popularity" with
          | Except.ok c2 => c2.vals.map intKeyV
          | Except.error _ => [])) n) "popularity" = _
      rw [getColE_setCol_same]
      show getColE (headDF (sortValsDesc
        (setCol t "popularity" Dtype.number (c0.vals.map numFill0))
        ((c0.vals.map numFill0).map intKeyV)) n) "popularity" = _
      unfold sortValsDesc
      rw [getColE_headDF, getColE_selectIdxs, getColE_setCol_same]
      rfl
  | some thv =>
    refine ⟨applyMask ((c0.vals.map numFill0).map (fun v => decide (intKeyV v > thv)))
      (c0.vals.map numFill0), ?_, ?_, ?_⟩
    · intro hcon
      cases hcon
    · intro thv2 he
      cases he
      rfl
    · show getColE (headDF (sortValsDesc
        (maskRows (setCol t "popularity" Dtype.number (c0.vals.map numFill0))
          ((c0.vals.map numFill0).map (fun v => decide (intKeyV v > thv))))
        (match getColE (maskRows (setCol t "popularity" Dtype.number
            (c0.vals.map numFill0))
            ((c0.vals.map numFill0).map (fun v => decide (intKeyV v > thv))))
            "popularity" with
          | Except.ok c2 => c2.vals.map intKeyV
          | Except.error _ => [])) n) "popularity" = _
      rw [getColE_maskRows, getColE_setCol_same]
      show getColE (headDF (sortValsDesc
        (maskRows (setCol t "popularity" Dtype.number (c0.vals.map numFill0))
          ((c0.vals.map numFill0).map (fun v => decide (intKeyV v > thv))))
        ((applyMask ((c0.vals.map numFill0).map (fun v => decide (intKeyV v > thv)))
          (c0.vals.map numFill0)).map intKeyV)) n) "popularity" = _
      unfold sortValsDesc
      rw [getColE_headDF, getColE_selectIdxs, getColE_maskRows, getColE_setCol_same]
      rfl

theorem hasCol_false_of_getColE_err {df : DF} {k : String} {e : String}
    (h : getColE df k = Except.error e) : hasCol df k = false := by
  unfold getColE at h
  rcases hf : df.cols.find? (fun c0 => c0.name == k) with _ | c1
  · unfold hasCol
    rw [Bool.eq_false_iff]
    intro hcon
    rcases List.any_eq_true.mp hcon with ⟨c2, hc2, hb⟩
    have := List.find?_eq_none.mp hf c2 hc2
    exact this hb
  · rw [hf] at h
    cases h

/-- C3: with a non-null threshold every returned row has popularity
strictly greater than the threshold; the returned rows are sorted by
popularity in non-increasing order; and the sort is stable — pandas
`nargsort` with `ascending=False` reverses the values and the index array
before the stable ascending argsort and the resulting indexer after, so
its indexer descends by key with ties in ascending (original) position
order (pandas GH #6399); on popularities `[95, 90, 92, 88, 95]` with
threshold 90 the result is the first 95-row, then the second 95-row, then
the 92-row. -/
theorem get_top_popular_tracks_spec :
    (∀ (t : DF) (th : Int) (n : Nat) (c : Col),
      getColE (get_top_popular_tracks t (some th) n) "popularity" = Except.ok c →
      ∀ v ∈ c.vals, th < intKeyV v) ∧
    (∀ (t : DF) (th : Option Int) (n : Nat) (c : Col),
      getColE (get_top_popular_tracks t th n) "popularity" = Except.ok c →
      c.vals.Pairwise (fun a b => intKeyV b ≤ intKeyV a)) ∧
    (∀ keys : List Int, (argsortDesc keys).Pairwise (descStable keys)) ∧
    get_top_popular_tracks tracksExT (some 90) 10 = topExpected := by
  refine ⟨?_, ?_, argsortDesc_pairwise_descStable, by rfl⟩
  · intro t th n c hc v hv
    rcases hg : getColE t "popularity" with e | c0
    · have hfalse := hasCol_false_of_getColE_err hg
      unfold get_top_popular_tracks at hc
      rw [hfalse, if_pos rfl, getColE_headDF, hg] at hc
      cases hc
    · obtain ⟨pvals, _, hsome, hcol⟩ := get_top_result_col (some th) n hg
      have hpv := hsome th rfl
      rw [hcol] at hc
      cases hc
      have hv2 := List.mem_of_mem_take hv
      rcases List.mem_map.mp hv2 with ⟨i, hi, rfl⟩
      have hilt : i < pvals.length := by
        have := mem_argsortDesc_lt hi
        rwa [List.length_map] at this
      have hmem : pvals.getD i Value.null ∈ pvals := by
        unfold List.getD
        rw [List.get?_eq_get hilt]
        exact List.get_mem pvals i hilt
      have hmem2 : pvals.getD i Value.null ∈
          applyMask ((c0.vals.map numFill0).map (fun v => decide (intKeyV v > th)))
            (c0.vals.map numFill0) := by
        rw [← hpv]
        exact hmem
      have hpred := mem_applyMask_map_pred hmem2
      exact of_decide_eq_true hpred
  · intro t th n c hc
    rcases hg : getColE t "popularity" with e | c0
    · have hfalse := hasCol_false_of_getColE_err hg
      unfold get_top_popular_tracks at hc
      rw [hfalse, if_pos rfl, getColE_headDF, hg] at hc
      cases hc
    · obtain ⟨pvals, _, _, hcol⟩ := get_top_result_col th n hg
      rw [hcol] at hc
      cases hc
      apply List.Pairwise.sublist (List.take_sublist n _)
      have hpair : (argsortDesc (pvals.map intKeyV)).Pairwise
          (fun i j => (pvals.map intKeyV).getD j 0 ≤ (pvals.map intKeyV).getD i 0) := by
        refine List.Pairwise.imp ?_
          (argsortDesc_pairwise_descStable (pvals.map intKeyV))
        intro i j h
        unfold descStable at h
        rcases h with h1 | ⟨h1, _⟩
        · exact le_of_lt h1
        · exact le_of_eq h1.symm
      refine List.Pairwise.map (fun i => pvals.getD i Value.null) ?_ hpair
      intro i j hij
      rw [← getD_map_intKeyV, ← getD_map_intKeyV]
      exact hij

/-- Witness for C3 at the example table. -/
theorem get_top_popular_tracks_spec_witness :
    (90 : Int) < intKeyV (Value.int 95) ∧
    ([Value.int 95, Value.int 95, Value.int 92] : List Value).Pairwise
      (fun a b => intKeyV b ≤ intKeyV a) :=
  ⟨get_top_popular_tracks_spec.1 tracksExT 90 10
      ⟨"popularity", Dtype.number, [Value.int 95, Value.int 95, Value.int 92]⟩
      (by rfl) (Value.int 95) (by simp),
    get_top_popular_tracks_spec.2.1 tracksExT (some 90) 10
      ⟨"popularity", Dtype.number, [Value.int 95, Value.int 95, Value.int 92]⟩
      (by rfl)⟩

/-! ## C7 / C9: the popularity trend -/

theorem resampleYearMean_sorted (pairs : List (Date × Value)) :
    (resampleYearMean pairs).Pairwise (fun a b => a.1.year < b.1.year) := by
  unfold resampleYearMean
  cases hm : pairs.map (fun p => p.1.year) with
  | nil => exact List.Pairwise.nil
  | cons y ys =>
    refine List.Pairwise.map _ ?_ (List.pairwise_lt_range _)
    intro i j hij
    show (ys.foldl min y) + (i : Int) < (ys.foldl min y) + (j : Int)
    omega

theorem trendResample_ye_sorted {df : DF} {l : List (Date × Option Rat)}
    (h : trendResample df "YE" = Except.ok l) :
    l.Pairwise (fun a b => a.1.year < b.1.year) := by
  unfold trendResample at h
  rcases hd : getColE df "release_date" with e | dc <;>
    rcases hp : getColE df "popularity" with e2 | pc <;>
    rw [hd, hp] at h
  · cases h
  · cases h
  · cases h
  · have h2 : Except.ok (resampleYearMean
        ((dc.vals.zip pc.vals).filterMap (fun p =>
          match p.1 with
          | Value.date d => some (d, p.2)
          | _ => none))) = Except.ok l := h
    cases h2
    exact resampleYearMean_sorted _

unseal Rat.mul Rat.inv Rat.add Rat.sub in
/-- C7 (amended): `popularity_trend` drops rows with a missing release
date, averages popularity per calendar-year bucket skipping missing
popularity values, and returns buckets labelled December 31 in strictly
ascending year order; the 2020 (50, 70) / 2021 (90) example yields exactly
the buckets 2020 → 60 and 2021 → 90.  Unlike the claim, empty buckets are
NOT omitted: every year between the minimum and maximum appears, a gap
year with mean `NaN` (see the counterexample). -/
theorem popularity_trend_spec :
    (∀ (t : DF) (l : List (Date × Option Rat)),
      popularity_trend t "YE" = Except.ok l →
      l.Pairwise (fun a b => a.1.year < b.1.year)) ∧
    popularity_trend trendExT "YE" =
      Except.ok [(⟨2020, 12, 31⟩, some 60), (⟨2021, 12, 31⟩, some 90)] := by
  constructor
  · intro t l h
    unfold popularity_trend at h
    by_cases hrc : hasCol t "release_date" = false
    · rw [if_pos hrc] at h
      cases h
      exact List.Pairwise.nil
    · rw [if_neg hrc] at h
      rcases hg : getColE t "release_date" with e | c
      · rw [hg] at h
        cases h
      · rw [hg] at h
        rw [show (if strUpper "YE" = "Y" then "YE" else "YE") = "YE" from rfl] at h
        exact trendResample_ye_sorted h
  · rfl

/-- Witness for C7: the sortedness statement applied to the example
table, whose hypothesis is discharged by the example equality itself. -/
theorem popularity_trend_spec_witness :
    ([((⟨2020, 12, 31⟩ : Date), some (60 : Rat)),
      (⟨2021, 12, 31⟩, some 90)]).Pairwise (fun a b => a.1.year < b.1.year) :=
  popularity_trend_spec.1 trendExT _ popularity_trend_spec.2

unseal Rat.mul Rat.inv Rat.add Rat.sub in
/-- Counterexample to C7 as stated: with releases only in 2020 and 2022,
`resample` produces a 2021 bucket with mean `NaN` — empty buckets are not
omitted, so the two-bucket result the claim predicts is wrong. -/
theorem popularity_trend_gap_bucket :
    popularity_trend trendGapT "YE" =
      Except.ok [(⟨2020, 12, 31⟩, some 50), (⟨2021, 12, 31⟩, none),
        (⟨2022, 12, 31⟩, some 90)] ∧
    popularity_trend trendGapT "YE" ≠
      Except.ok [(⟨2020, 12, 31⟩, some 50), (⟨2022, 12, 31⟩, some 90)] := by
  constructor
  · rfl
  · intro h
    rw [show popularity_trend trendGapT "YE" =
      Except.ok [(⟨2020, 12, 31⟩, some 50), (⟨2021, 12, 31⟩, none),
        (⟨2022, 12, 31⟩, some 90)] from rfl] at h
    injection h with h2
    have hlen := congrArg List.length h2
    simp at hlen

/-- C9: the legacy single-letter yearly frequency code `"Y"` is mapped to
the canonical `"YE"` before resampling, so the two calls agree on every
input table — bucket boundaries included. -/
theorem popularity_trend_legacy_alias (t : DF) :
    popularity_trend t "Y" = popularity_trend t "YE" := by
  unfold popularity_trend
  rw [show (if strUpper "Y" = "Y" then "YE" else "Y") = "YE" from rfl,
      show (if strUpper "YE" = "Y" then "YE" else "YE") = "YE" from rfl]
